import Mathlib

/-!
Verification development for the annotation extraction and knowledge-graph
assembly engine of the know-know repository.

The repository ships only the fixture corpus (example annotated Python
sources); the engine itself (lexical scanner, annotation extractor, schema
validator/normalizer, entity resolver/graph builder, and the `scan`/`diff`
interface) is specified in `spec.md` but its code is not present.  The
engine definitions below are therefore modelled from the spec, while the
fixture corpus is embedded verbatim from the repository files.
-/

namespace KnowKnow

/-! ## Character and string utilities

The engine is modelled over `List Char` so all string processing is by
plain structural recursion. -/

/-- A character counting as horizontal whitespace. -/
def isSpaceChar (c : Char) : Bool := c = ' ' || c = '\t'

/-- Drop leading whitespace characters. -/
def dropSpaces (cs : List Char) : List Char := cs.dropWhile isSpaceChar

/-- Trim whitespace from both ends of a character list. -/
def trimChars (cs : List Char) : List Char :=
  ((cs.dropWhile isSpaceChar).reverse.dropWhile isSpaceChar).reverse

/-- Trim whitespace from both ends of a string. -/
def trimStr (s : String) : String := ⟨trimChars s.data⟩

/-- Number of leading space characters of a line (its indentation). -/
def indentOf (s : String) : Nat := (s.data.takeWhile (fun c => c = ' ')).length

/-! ## Structured-text values

Modelled from the spec: the Schema Validator parses an annotation body as a
nested key-value structure, a restricted YAML subset of mappings of string
keys to scalars, sequences, or nested mappings (no anchors/aliases/tags). -/

/-- A parsed structured-text value: scalar, sequence or mapping. -/
inductive Value where
  | scalar (s : String)
  | seq (items : List Value)
  | map (entries : List (String × Value))

mutual

/-- Render a value back to a canonical textual form (used to keep unknown
keys verbatim in the extensions bag). -/
def renderValue : Value → String
  | .scalar s => "s:" ++ s
  | .seq items => "q(" ++ renderValues items ++ ")"
  | .map es => "m(" ++ renderEntries es ++ ")"

/-- Render a list of values. -/
def renderValues : List Value → String
  | [] => ""
  | v :: vs => renderValue v ++ "," ++ renderValues vs

/-- Render a list of mapping entries. -/
def renderEntries : List (String × Value) → String
  | [] => ""
  | (k, v) :: es => k ++ "=" ++ renderValue v ++ ";" ++ renderEntries es

end

/-- Split a line at the first `": "` occurrence (key/value separator). -/
def splitAtColonSpace : List Char → Option (List Char × List Char)
  | [] => none
  | ':' :: ' ' :: rest => some ([], rest)
  | c :: rest =>
    match splitAtColonSpace rest with
    | some (a, b) => some (c :: a, b)
    | none => none

/-- Interpret a trimmed line as `key: value` or `key:` (empty value). -/
def keyValOf (t : List Char) : Option (String × String) :=
  match splitAtColonSpace t with
  | some (k, v) => some (⟨trimChars k⟩, ⟨trimChars v⟩)
  | none =>
    if t.getLast? = some ':' then some (⟨trimChars t.dropLast⟩, "") else none

/-- Strip a single pair of surrounding double quotes from a scalar token. -/
def unquoteToken (v : List Char) : String :=
  match v with
  | '"' :: rest => if rest.getLast? = some '"' then ⟨rest.dropLast⟩ else ⟨v⟩
  | _ => ⟨v⟩

/-- Split a character list on commas (flat, for inline sequences). -/
def splitCommas : List Char → List (List Char)
  | [] => [[]]
  | ',' :: rest => [] :: splitCommas rest
  | c :: rest =>
    match splitCommas rest with
    | [] => [[c]]
    | x :: xs => (c :: x) :: xs

/-- Parse an inline value: a `[a, b]` flow sequence or a scalar. -/
def parseInlineVal (v : List Char) : Except String Value :=
  match v with
  | '[' :: rest =>
    if rest.getLast? = some ']' then
      let inner := trimChars rest.dropLast
      if inner = [] then .ok (.seq [])
      else .ok (.seq ((splitCommas inner).map
        (fun x => .scalar (unquoteToken (trimChars x)))))
    else .error "unterminated flow sequence"
  | _ => .ok (.scalar (unquoteToken v))

/-- One nonblank body line: indentation and trimmed content. -/
def prepBody (body : List String) : List (Nat × List Char) :=
  body.filterMap (fun l =>
    let t := trimChars l.data
    if t = [] then none else some (indentOf l, t))

/-- Interpret a trimmed line as a sequence item (`- item` or bare `-`). -/
def dashItem (t : List Char) : Option (List Char) :=
  match t with
  | '-' :: ' ' :: rest => some (trimChars rest)
  | ['-'] => some []
  | _ => none

/-- The three block-parsing modes: a mapping block, a sequence block, or a
nested block whose shape is decided by its first line. -/
inductive ParseMode where
  | mapMode
  | nestedMode
  | seqMode
deriving DecidableEq, Repr

/-- Parse a block at indentation `i`.  Modelled from the spec: mappings of
string keys to scalars, sequences, or nested mappings; sequences of scalars
or mappings; malformed indentation is a parse error.  In `mapMode` the
result is a `.map`, in `seqMode` a `.seq`; `nestedMode` dispatches on the
first line.  The fuel argument only bounds nesting and is chosen large
enough in `parseBody`. -/
def parseAt : Nat → ParseMode → List (Nat × List Char) → Nat →
    Except String (Value × List (Nat × List Char))
  | 0, _, _, _ => .error "nesting too deep"
  | _ + 1, .mapMode, [], _ => .ok (.map [], [])
  | _ + 1, .seqMode, [], _ => .ok (.seq [], [])
  | _ + 1, .nestedMode, [], _ => .ok (.map [], [])
  | fuel + 1, .mapMode, (ind, t) :: rest, i =>
    if ind < i then .ok (.map [], (ind, t) :: rest)
    else if i < ind then .error "malformed indentation"
    else
      match dashItem t with
      | some _ => .error "unexpected sequence item"
      | none =>
        match keyValOf t with
        | none => .error ("not a key-value line: " ++ (⟨t⟩ : String))
        | some (k, v) =>
          if v = "" then
            match rest with
            | (ind2, t2) :: _ =>
              if i < ind2 then
                match parseAt fuel .nestedMode rest ind2 with
                | .error e => .error e
                | .ok (val, rest2) =>
                  match parseAt fuel .mapMode rest2 i with
                  | .error e => .error e
                  | .ok (.map es, rest3) => .ok (.map ((k, val) :: es), rest3)
                  | .ok _ => .error "internal: map block expected"
              else
                match parseAt fuel .mapMode ((ind2, t2) :: rest.tail) i with
                | .error e => .error e
                | .ok (.map es, rest3) => .ok (.map ((k, .scalar "") :: es), rest3)
                | .ok _ => .error "internal: map block expected"
            | [] => .ok (.map [(k, .scalar "")], [])
          else
            match parseInlineVal v.data with
            | .error e => .error e
            | .ok pv =>
              match parseAt fuel .mapMode rest i with
              | .error e => .error e
              | .ok (.map es, rest3) => .ok (.map ((k, pv) :: es), rest3)
              | .ok _ => .error "internal: map block expected"
  | fuel + 1, .nestedMode, (ind, t) :: rest, i =>
    match dashItem t with
    | some _ => parseAt fuel .seqMode ((ind, t) :: rest) i
    | none => parseAt fuel .mapMode ((ind, t) :: rest) i
  | fuel + 1, .seqMode, (ind, t) :: rest, i =>
    if ind < i then .ok (.seq [], (ind, t) :: rest)
    else if i < ind then .error "malformed indentation"
    else
      match dashItem t with
      | none => .error "expected sequence item"
      | some item =>
        match keyValOf item with
        | some (k, v) =>
          match parseInlineVal v.data with
          | .error e => .error e
          | .ok pv =>
            match rest with
            | (ind2, t2) :: _ =>
              if i < ind2 then
                match parseAt fuel .mapMode rest ind2 with
                | .error e => .error e
                | .ok (.map es, rest2) =>
                  match parseAt fuel .seqMode rest2 i with
                  | .error e => .error e
                  | .ok (.seq items, rest3) =>
                    .ok (.seq (.map ((k, pv) :: es) :: items), rest3)
                  | .ok _ => .error "internal: seq block expected"
                | .ok _ => .error "internal: map block expected"
              else
                match parseAt fuel .seqMode ((ind2, t2) :: rest.tail) i with
                | .error e => .error e
                | .ok (.seq items, rest3) =>
                  .ok (.seq (.map [(k, pv)] :: items), rest3)
                | .ok _ => .error "internal: seq block expected"
            | [] => .ok (.seq [.map [(k, pv)]], [])
        | none =>
          match parseInlineVal item with
          | .error e => .error e
          | .ok pv =>
            match parseAt fuel .seqMode rest i with
            | .error e => .error e
            | .ok (.seq items, rest3) => .ok (.seq (pv :: items), rest3)
            | .ok _ => .error "internal: seq block expected"

/-- Parse an annotation body (the lines after a sentinel) into a `Value`.
Modelled from the spec: parse failure yields a message that becomes a
`SchemaError` diagnostic. -/
def parseBody (body : List String) : Except String Value :=
  let ls := prepBody body
  match ls with
  | [] => .error "empty annotation body"
  | (i, _) :: _ =>
    match parseAt (ls.length * ls.length + ls.length + 2) .mapMode ls i with
    | .ok (v, []) => .ok v
    | .ok (_, (_, t) :: _) => .error ("unexpected line: " ++ (⟨t⟩ : String))
    | .error e => .error e

/-! ## Schema validator and normalizer

Modelled from the spec: required fields `kind` and `description`; optional
fields validated field-by-field, the first violating field yielding a
`ValidationError` with its field path (fail-fast per record); unknown
top-level keys preserved under an extensions bag.  The fixture corpus
declares the kind under key `type`, so the normalizer accepts `type` as the
carrier of `kind`. -/

/-- A link entry: type, url, title. -/
structure LinkEntry where
  ltype : String
  url : String
  title : String
deriving DecidableEq, Repr

/-- Business-context block. -/
structure ContextInfo where
  business_goal : Option String
  funnel_stage : Option String
  revenue_impact : Option String
deriving DecidableEq, Repr

/-- Declared-dependency block. -/
structure DependencyInfo where
  services : List String
  databases : List String
  external_apis : List String
deriving DecidableEq, Repr

/-- Compliance block. -/
structure ComplianceInfo where
  regulations : List String
  data_sensitivity : Option String
  audit_requirements : List String
deriving DecidableEq, Repr

/-- Operational block. -/
structure OperationalInfo where
  sla : Option String
  on_call_team : Option String
  monitoring_dashboards : List LinkEntry
deriving DecidableEq, Repr

/-- A normalized annotation record. -/
structure AnnotationRecord where
  kind : String
  description : String
  owner : Option String
  status : Option String
  tags : Option (List String)
  links : Option (List LinkEntry)
  context : Option ContextInfo
  dependencies : Option DependencyInfo
  compliance : Option ComplianceInfo
  operational : Option OperationalInfo
  extensions : List (String × String)
deriving DecidableEq, Repr

/-- The legal values of the `kind` field. -/
def kindValues : List String := ["module", "class", "function", "method"]

/-- The legal values of the `status` field. -/
def statusValues : List String := ["stable", "experimental", "deprecated"]

/-- The legal values of the `context.funnel_stage` field. -/
def funnelStageValues : List String :=
  ["acquisition", "activation", "retention", "revenue", "referral"]

/-- The legal values of the `context.revenue_impact` field. -/
def revenueImpactValues : List String := ["critical", "high", "medium", "low"]

/-- The legal values of the `compliance.data_sensitivity` field. -/
def dataSensitivityValues : List String :=
  ["public", "internal", "confidential", "restricted"]

/-- View a value as a scalar. -/
def asScalar : Value → Option String
  | .scalar s => some s
  | _ => none

/-- View a value as a sequence of scalars. -/
def asStringList : Value → Option (List String)
  | .seq items => items.foldr (fun v acc =>
      match v, acc with
      | .scalar s, some l => some (s :: l)
      | _, _ => none) (some [])
  | _ => none

/-- Look up a top-level key of a mapping value. -/
def lookupKey (v : Value) (k : String) : Option Value :=
  match v with
  | .map es => es.lookup k
  | _ => none

/-- A validation failure: field path and message. -/
abbrev ValErr := String × String

/-- Resolve the required `kind` field, accepting the corpus key `type` as
its carrier, and check enum membership. -/
def requireKind (v : Value) : Except ValErr String :=
  match (lookupKey v "kind").orElse (fun _ => lookupKey v "type") with
  | none => .error ("kind", "required field missing")
  | some kv =>
    match asScalar kv with
    | none => .error ("kind", "must be a scalar")
    | some k =>
      if k ∈ kindValues then .ok k
      else .error ("kind", "must be one of module|class|function|method")

/-- Resolve the required non-empty `description` field. -/
def requireDescription (v : Value) : Except ValErr String :=
  match lookupKey v "description" with
  | none => .error ("description", "required field missing")
  | some dv =>
    match asScalar dv with
    | none => .error ("description", "must be a scalar")
    | some d => if d = "" then .error ("description", "must be non-empty") else .ok d

/-- An optional scalar field of a mapping value. -/
def optScalarIn (v : Value) (k : String) (path : String) :
    Except ValErr (Option String) :=
  match lookupKey v k with
  | none => .ok none
  | some fv =>
    match asScalar fv with
    | none => .error (path, "must be a scalar")
    | some s => .ok (some s)

/-- An optional enum field of a mapping value: its value must belong to the
fixed allowed set, otherwise validation fails naming the field path. -/
def optEnumIn (v : Value) (k : String) (path : String) (allowed : List String) :
    Except ValErr (Option String) :=
  match lookupKey v k with
  | none => .ok none
  | some fv =>
    match asScalar fv with
    | none => .error (path, "must be a scalar")
    | some s =>
      if s ∈ allowed then .ok (some s)
      else .error (path, "must be one of the allowed values")

/-- An optional string-list field of a mapping value. -/
def optListIn (v : Value) (k : String) (path : String) :
    Except ValErr (Option (List String)) :=
  match lookupKey v k with
  | none => .ok none
  | some fv =>
    match asStringList fv with
    | none => .error (path, "must be a sequence of strings")
    | some l => .ok (some l)

/-- Validate a single link entry (a mapping with type/url/title scalars). -/
def validateLink (path : String) (v : Value) : Except ValErr LinkEntry :=
  match optScalarIn v "type" (path ++ ".type"),
        optScalarIn v "url" (path ++ ".url"),
        optScalarIn v "title" (path ++ ".title") with
  | .ok t, .ok u, .ok ti =>
    .ok ⟨t.getD "", u.getD "", ti.getD ""⟩
  | .error e, _, _ => .error e
  | _, .error e, _ => .error e
  | _, _, .error e => .error e

/-- Validate a list of link entries. -/
def validateLinkList (path : String) : List Value → Except ValErr (List LinkEntry)
  | [] => .ok []
  | v :: vs =>
    match validateLink path v with
    | .error e => .error e
    | .ok l =>
      match validateLinkList path vs with
      | .error e => .error e
      | .ok ls => .ok (l :: ls)

/-- An optional link-sequence field of a mapping value. -/
def optLinksIn (v : Value) (k : String) (path : String) :
    Except ValErr (Option (List LinkEntry)) :=
  match lookupKey v k with
  | none => .ok none
  | some (.seq items) =>
    match validateLinkList path items with
    | .error e => .error e
    | .ok ls => .ok (some ls)
  | some _ => .error (path, "must be a sequence")

/-- Validate the optional `context` block. -/
def validateContext (v : Value) : Except ValErr (Option ContextInfo) :=
  match lookupKey v "context" with
  | none => .ok none
  | some cv =>
    match optScalarIn cv "business_goal" "context.business_goal" with
    | .error e => .error e
    | .ok bg =>
      match optEnumIn cv "funnel_stage" "context.funnel_stage" funnelStageValues with
      | .error e => .error e
      | .ok fs =>
        match optEnumIn cv "revenue_impact" "context.revenue_impact" revenueImpactValues with
        | .error e => .error e
        | .ok ri => .ok (some ⟨bg, fs, ri⟩)

/-- Validate the optional `dependencies` block. -/
def validateDependencies (v : Value) : Except ValErr (Option DependencyInfo) :=
  match lookupKey v "dependencies" with
  | none => .ok none
  | some dv =>
    match optListIn dv "services" "dependencies.services" with
    | .error e => .error e
    | .ok sv =>
      match optListIn dv "databases" "dependencies.databases" with
      | .error e => .error e
      | .ok db =>
        match optListIn dv "external_apis" "dependencies.external_apis" with
        | .error e => .error e
        | .ok ea => .ok (some ⟨sv.getD [], db.getD [], ea.getD []⟩)

/-- Validate the optional `compliance` block. -/
def validateCompliance (v : Value) : Except ValErr (Option ComplianceInfo) :=
  match lookupKey v "compliance" with
  | none => .ok none
  | some cv =>
    match optListIn cv "regulations" "compliance.regulations" with
    | .error e => .error e
    | .ok rg =>
      match optEnumIn cv "data_sensitivity" "compliance.data_sensitivity" dataSensitivityValues with
      | .error e => .error e
      | .ok ds =>
        match optListIn cv "audit_requirements" "compliance.audit_requirements" with
        | .error e => .error e
        | .ok ar => .ok (some ⟨rg.getD [], ds, ar.getD []⟩)

/-- Validate the optional `operational` block. -/
def validateOperational (v : Value) : Except ValErr (Option OperationalInfo) :=
  match lookupKey v "operational" with
  | none => .ok none
  | some ov =>
    match optScalarIn ov "sla" "operational.sla" with
    | .error e => .error e
    | .ok sl =>
      match optScalarIn ov "on_call_team" "operational.on_call_team" with
      | .error e => .error e
      | .ok oc =>
        match optLinksIn ov "monitoring_dashboards" "operational.monitoring_dashboards" with
        | .error e => .error e
        | .ok md => .ok (some ⟨sl, oc, md.getD []⟩)

/-- The top-level keys understood by the core schema. -/
def reservedKeys : List String :=
  ["kind", "type", "description", "owner", "status", "tags", "links",
   "context", "dependencies", "compliance", "operational"]

/-- Unknown top-level keys, preserved verbatim (in rendered form). -/
def extensionsOf (v : Value) : List (String × String) :=
  match v with
  | .map es => es.filterMap (fun e =>
      if e.1 ∈ reservedKeys then none else some (e.1, renderValue e.2))
  | _ => []

/-- Validate a parsed body field-by-field, producing a normalized record or
the first field violation (fail-fast per record). -/
def validateRecord (v : Value) : Except ValErr AnnotationRecord :=
  match requireKind v with
  | .error e => .error e
  | .ok kd =>
    match requireDescription v with
    | .error e => .error e
    | .ok ds =>
      match optScalarIn v "owner" "owner" with
      | .error e => .error e
      | .ok ow =>
        match optEnumIn v "status" "status" statusValues with
        | .error e => .error e
        | .ok st =>
          match optListIn v "tags" "tags" with
          | .error e => .error e
          | .ok tg =>
            match optLinksIn v "links" "links" with
            | .error e => .error e
            | .ok lk =>
              match validateContext v with
              | .error e => .error e
              | .ok cx =>
                match validateDependencies v with
                | .error e => .error e
                | .ok dp =>
                  match validateCompliance v with
                  | .error e => .error e
                  | .ok cp =>
                    match validateOperational v with
                    | .error e => .error e
                    | .ok op =>
                      .ok { kind := kd, description := ds, owner := ow,
                            status := st, tags := tg, links := lk,
                            context := cx, dependencies := dp,
                            compliance := cp, operational := op,
                            extensions := extensionsOf v }

/-! ## Source lexical scanner

Modelled from the spec: per-language adapters emit comment/docstring text
spans with the enclosing code symbol; the Python adapter identifies the
module-level leading comment/docstring and each class/function/method
definition's leading docstring; nesting is structural and symbol names are
dotted paths from the module root; an unrecognized extension yields a
single module-level span covering the whole file. -/

/-- An enclosing code symbol: the module, or a named child with a kind tag
and a parent (forming the containment tree of a file). -/
inductive EnclosingSymbol where
  | moduleSym : EnclosingSymbol
  | child (name : String) (kindTag : String) (parent : EnclosingSymbol)
deriving DecidableEq, Repr

/-- The kind of a symbol (`module`, `class`, `function` or `method`). -/
def EnclosingSymbol.kindOf : EnclosingSymbol → String
  | .moduleSym => "module"
  | .child _ k _ => k

/-- The dotted qualified name of a symbol from the module root. -/
def EnclosingSymbol.qualName : EnclosingSymbol → String
  | .moduleSym => "<module>"
  | .child n _ .moduleSym => n
  | .child n _ (.child m k p) => (EnclosingSymbol.child m k p).qualName ++ "." ++ n

/-- The parent of a symbol, if any. -/
def EnclosingSymbol.parentOf : EnclosingSymbol → Option EnclosingSymbol
  | .moduleSym => none
  | .child _ _ p => some p

/-- A comment/docstring text span: start line, numbered content lines, and
the enclosing symbol. -/
structure TextSpan where
  startLine : Nat
  content : List (Nat × String)
  symbol : EnclosingSymbol
deriving DecidableEq, Repr

/-- Attach 1-based line numbers to lines. -/
def numberFrom : Nat → List String → List (Nat × String)
  | _, [] => []
  | n, l :: ls => (n, l) :: numberFrom (n + 1) ls

/-- The triple-double-quote docstring delimiter. -/
def tripleQuote : List Char := ['"', '"', '"']

/-- Whether a character may appear in a Python identifier. -/
def identChar (c : Char) : Bool := c.isAlpha || c.isDigit || c = '_'

/-- Recognize a `def name` or `class name` line; returns the name and
whether it is a class. -/
def defClassOf (t : List Char) : Option (String × Bool) :=
  if ['d', 'e', 'f', ' '].isPrefixOf t then
    let nm := ((t.drop 4).dropWhile isSpaceChar).takeWhile identChar
    if nm = [] then none else some (⟨nm⟩, false)
  else if ['c', 'l', 'a', 's', 's', ' '].isPrefixOf t then
    let nm := ((t.drop 6).dropWhile isSpaceChar).takeWhile identChar
    if nm = [] then none else some (⟨nm⟩, true)
  else none

/-- Does the list end with the docstring delimiter? -/
def endsWithTriple (t : List Char) : Bool := tripleQuote.reverse.isPrefixOf t.reverse

/-- Remove trailing whitespace and a trailing docstring delimiter. -/
def dropClosingTriple (raw : List Char) : List Char :=
  (((raw.reverse.dropWhile isSpaceChar).drop 3)).reverse

/-- State of the Python adapter walk: symbol stack with indents, the open
docstring (symbol, start line, reversed accumulated lines), and the spans
collected so far (reversed). -/
structure PyState where
  stack : List (EnclosingSymbol × Nat)
  doc : Option (EnclosingSymbol × Nat × List (Nat × String))
  spans : List TextSpan

/-- Close the open docstring, if any, into a span. -/
def closeDoc (st : PyState) : List TextSpan :=
  match st.doc with
  | some (sym, n, acc) => ⟨n, acc.reverse, sym⟩ :: st.spans
  | none => st.spans

/-- One step of the Python adapter walk over a numbered line. -/
def pyStep (st : PyState) (n : Nat) (l : String) : PyState :=
  match st.doc with
  | some (sym, n0, acc) =>
    let t := trimChars l.data
    if endsWithTriple t then
      let pre := dropClosingTriple l.data
      let acc2 := if trimChars pre = [] then acc else (n, (⟨pre⟩ : String)) :: acc
      { stack := st.stack, doc := none, spans := ⟨n0, acc2.reverse, sym⟩ :: st.spans }
    else
      { stack := st.stack, doc := some (sym, n0, (n, l) :: acc), spans := st.spans }
  | none =>
    let t := trimChars l.data
    if tripleQuote.isPrefixOf t then
      let after := t.drop 3
      let encl := match st.stack with
        | [] => EnclosingSymbol.moduleSym
        | (s, i) :: _ => if i < indentOf l then s else EnclosingSymbol.moduleSym
      if 3 ≤ after.length && endsWithTriple after then
        { stack := st.stack, doc := none,
          spans := ⟨n, [(n, (⟨(after.reverse.drop 3).reverse⟩ : String))], encl⟩ :: st.spans }
      else
        { stack := st.stack, doc := some (encl, n, [(n, (⟨after⟩ : String))]), spans := st.spans }
    else
      match defClassOf t with
      | some (nm, isCls) =>
        let ind := indentOf l
        let stack2 := st.stack.dropWhile (fun p => ind ≤ p.2)
        let parent := match stack2 with
          | [] => EnclosingSymbol.moduleSym
          | (s, _) :: _ => s
        let kd := if isCls then "class"
                  else if parent.kindOf = "class" then "method" else "function"
        { stack := (EnclosingSymbol.child nm kd parent, ind) :: stack2,
          doc := st.doc, spans := st.spans }
      | none => st

/-- Walk all numbered lines of a Python file. -/
def pyWalk : List (Nat × String) → PyState → List TextSpan
  | [], st => (closeDoc st).reverse
  | (n, l) :: rest, st => pyWalk rest (pyStep st n l)

/-- The module-level leading `#`-comment block of a file, as a span. -/
def leadingComments (ls : List (Nat × String)) : List TextSpan :=
  let blk := ls.takeWhile (fun p =>
    trimChars p.2.data = [] || (trimChars p.2.data).head? = some '#')
  let nonblank := blk.filter (fun p => trimChars p.2.data ≠ [])
  match nonblank with
  | [] => []
  | (n, _) :: _ => [⟨n, nonblank, .moduleSym⟩]

/-- The Python language adapter: leading comment block plus docstring spans
with their enclosing symbols. -/
def pyAdapter (lines : List String) : List TextSpan :=
  let numbered := numberFrom 1 lines
  leadingComments numbered ++ pyWalk numbered ⟨[], none, []⟩

/-- Fallback adapter for unrecognized extensions: one module-level span
covering the whole file. -/
def wholeFileSpan (lines : List String) : List TextSpan :=
  [⟨1, numberFrom 1 lines, .moduleSym⟩]

/-- Does the path carry the `.py` extension? -/
def pyExtension (path : String) : Bool :=
  ['.', 'p', 'y'].reverse.isPrefixOf path.data.reverse

/-- Adapter selection by file extension. -/
def spansOf (path : String) (lines : List String) : List TextSpan :=
  if pyExtension path then pyAdapter lines else wholeFileSpan lines

/-! ## Annotation extractor

Modelled from the spec: a span is scanned line-by-line for a line that,
after trimming whitespace and comment-leader characters, equals a
registered sentinel token; the body runs from the next line to the end of
the span or the next sentinel; a span with two sentinel tokens yields two
raw annotations on the same symbol. -/

/-- The registered sentinel tokens (`@codegraph` legacy, `@knowgraph`
current). -/
def sentinelTokens : List String := ["@codegraph", "@knowgraph"]

/-- Recency rank of a sentinel variant (most recent highest). -/
def variantRank (v : String) : Nat := if v = "@knowgraph" then 1 else 0

/-- Trim whitespace and a leading `#` comment leader. -/
def stripCommentLeader (s : String) : String :=
  match trimChars s.data with
  | '#' :: rest => ⟨trimChars rest⟩
  | t => ⟨t⟩

/-- Which sentinel token, if any, does this line mark? -/
def sentinelOf (l : String) : Option String :=
  let t := stripCommentLeader l
  if t ∈ sentinelTokens then some t else none

/-- Remove a `#` comment leader from a body line, keeping the rest. -/
def stripHashBody (l : String) : String :=
  match dropSpaces l.data with
  | '#' :: rest => ⟨rest⟩
  | _ => l

/-- A raw annotation: sentinel variant, enclosing symbol, sentinel line and
unparsed body lines. -/
structure RawAnnot where
  variant : String
  symbol : EnclosingSymbol
  line : Nat
  body : List String
deriving DecidableEq, Repr

/-- One extractor step over a line: the annotations closed by this line
and the open annotation afterwards. -/
def extractStep (sym : EnclosingSymbol) (n : Nat) (l : String)
    (cur : Option (String × Nat × List String)) :
    List RawAnnot × Option (String × Nat × List String) :=
  match sentinelOf l with
  | some v =>
    match cur with
    | some (v0, n0, acc) => ([⟨v0, sym, n0, acc.reverse⟩], some (v, n, []))
    | none => ([], some (v, n, []))
  | none =>
    match cur with
    | some (v0, n0, acc) => ([], some (v0, n0, stripHashBody l :: acc))
    | none => ([], none)

/-- Walk a span's lines accumulating raw annotations; `cur` is the open
annotation (variant, sentinel line, reversed body). -/
def extractGo (sym : EnclosingSymbol) :
    List (Nat × String) → Option (String × Nat × List String) → List RawAnnot
  | [], cur =>
    match cur with
    | none => []
    | some (v, n, acc) => [⟨v, sym, n, acc.reverse⟩]
  | (n, l) :: rest, cur =>
    (extractStep sym n l cur).1 ++ extractGo sym rest (extractStep sym n l cur).2

/-- Extract all raw annotations of a span. -/
def extractSpan (sp : TextSpan) : List RawAnnot :=
  extractGo sp.symbol sp.content none

/-! ## Entity resolver and graph builder

Modelled from the spec: nodes are keyed by the deterministic identity
(file path, qualified symbol name, kind); records contributing to one
identity are ordered by sentinel-variant recency rank and merged field by
field, the highest-rank variant winning per field; structural `contains`
edges come from enclosing-symbol nesting and semantic edges from declared
references; edge emission dedupes by the (source, kind, target) triple. -/

/-- The deterministic identity of an entity node. -/
structure Identity where
  path : String
  qualName : String
  kindTag : String
deriving DecidableEq, Repr

/-- Identity of a symbol within a file. -/
def identityOf (path : String) (sym : EnclosingSymbol) : Identity :=
  ⟨path, sym.qualName, sym.kindOf⟩

/-- A diagnostic of the scan. -/
inductive Diagnostic where
  | ioError (file : String)
  | schemaError (file : String) (line : Nat) (msg : String)
  | validationError (file : String) (line : Nat) (fieldPath : String) (msg : String)
  | identityConflictError (file : String) (qualName : String)
deriving DecidableEq, Repr

/-- Parse and validate one raw annotation into a record or a diagnostic. -/
def parseAndValidate (path : String) (r : RawAnnot) :
    Except Diagnostic AnnotationRecord :=
  match parseBody r.body with
  | .error msg => .error (.schemaError path r.line msg)
  | .ok v =>
    match validateRecord v with
    | .error e => .error (.validationError path r.line e.1 e.2)
    | .ok recd => .ok recd

/-- An entity node of the graph: identity, symbol, merged record,
contributing variants and provenance. -/
structure EntityNode where
  id : Identity
  symbol : EnclosingSymbol
  record : AnnotationRecord
  variants : List String
  provenance : List (String × Nat)
deriving DecidableEq, Repr

/-- Fall back to the second option when the first is absent. -/
def orElseO {α : Type} (a b : Option α) : Option α :=
  match a with
  | some x => some x
  | none => b

/-- Field-level last-writer-wins merge: the higher-rank record `hi` wins on
every field it defines, falling back to `lo` for fields it omits. -/
def mergeRecords (lo hi : AnnotationRecord) : AnnotationRecord :=
  { kind := hi.kind
    description := hi.description
    owner := orElseO hi.owner lo.owner
    status := orElseO hi.status lo.status
    tags := orElseO hi.tags lo.tags
    links := orElseO hi.links lo.links
    context := orElseO hi.context lo.context
    dependencies := orElseO hi.dependencies lo.dependencies
    compliance := orElseO hi.compliance lo.compliance
    operational := orElseO hi.operational lo.operational
    extensions := hi.extensions ++
      lo.extensions.filter (fun e => !(hi.extensions.any (fun e2 => e2.1 == e.1))) }

/-- Stable insertion into a sorted list (ties keep earlier elements first). -/
def insertLe {α : Type} (le : α → α → Bool) (a : α) : List α → List α
  | [] => [a]
  | b :: bs => if le a b then a :: b :: bs else b :: insertLe le a bs

/-- Stable insertion sort by a boolean relation. -/
def sortLe {α : Type} (le : α → α → Bool) (l : List α) : List α :=
  l.foldr (insertLe le) []

/-- Order contributing annotations by sentinel-variant recency rank. -/
def contribLe (a b : RawAnnot × AnnotationRecord) : Bool :=
  decide (variantRank a.1.variant ≤ variantRank b.1.variant)

/-- Build the node of one identity from its contributing annotations: the
records are sorted by variant rank (not by arrival order) and merged
field-by-field, most recent last. -/
def buildNodeFrom (i : Identity)
    (contribs : List (RawAnnot × AnnotationRecord)) : Option EntityNode :=
  match sortLe contribLe contribs with
  | [] => none
  | c :: cs => some
    { id := i
      symbol := c.1.symbol
      record := cs.foldl (fun acc rv => mergeRecords acc rv.2) c.2
      variants := (c :: cs).map (fun rv => rv.1.variant)
      provenance := (c :: cs).map (fun rv => (rv.1.variant, rv.1.line)) }

/-- Build the node of one identity from the validated annotations of a
file. -/
def buildNode (path : String) (valids : List (RawAnnot × AnnotationRecord))
    (i : Identity) : Option EntityNode :=
  buildNodeFrom i (valids.filter (fun rv => decide (identityOf path rv.1.symbol = i)))

/-- Edge kinds. -/
inductive EdgeKind where
  | contains
  | depends_on_service
  | depends_on_database
  | calls_external_api
  | links_to_doc
deriving DecidableEq, Repr

/-- Stringify an edge kind. -/
def EdgeKind.str : EdgeKind → String
  | .contains => "contains"
  | .depends_on_service => "depends_on_service"
  | .depends_on_database => "depends_on_database"
  | .calls_external_api => "calls_external_api"
  | .links_to_doc => "links_to_doc"

/-- An edge target: another entity node or an opaque external identifier. -/
inductive EdgeTarget where
  | entity (id : Identity)
  | externalRef (name : String)
deriving DecidableEq, Repr

/-- A graph edge; `attr` carries link attributes for `links_to_doc`. -/
structure Edge where
  src : Identity
  kind : EdgeKind
  target : EdgeTarget
  attr : Option LinkEntry
deriving DecidableEq, Repr

/-- The (source, kind, target) triple of an edge, flattened to a key. -/
def edgeTriple (e : Edge) : List String :=
  [e.src.path, e.src.qualName, e.src.kindTag, e.kind.str] ++
  (match e.target with
   | .entity i => ["entity", i.path, i.qualName, i.kindTag]
   | .externalRef s => ["external", s])

/-- Structural `contains` edges: one per node whose enclosing symbol has a
non-null parent with its own resolved node. -/
def containsEdges (nodes : List EntityNode) : List Edge :=
  nodes.filterMap (fun n =>
    match n.symbol with
    | .moduleSym => none
    | .child _ _ p =>
      let pid : Identity := ⟨n.id.path, p.qualName, p.kindOf⟩
      if nodes.any (fun m => decide (m.id = pid)) then
        some ⟨pid, .contains, .entity n.id, none⟩
      else none)

/-- Semantic edges declared by a node's merged record. -/
def semanticEdges (n : EntityNode) : List Edge :=
  (match n.record.dependencies with
   | some d =>
     d.services.map (fun s => ⟨n.id, .depends_on_service, .externalRef s, none⟩) ++
     d.databases.map (fun s => ⟨n.id, .depends_on_database, .externalRef s, none⟩) ++
     d.external_apis.map (fun s => ⟨n.id, .calls_external_api, .externalRef s, none⟩)
   | none => []) ++
  (match n.record.links with
   | some ls => ls.map (fun l => ⟨n.id, .links_to_doc, .externalRef l.url, some l⟩)
   | none => [])

/-- Keep the first element for each key, dropping later duplicates. -/
def dedupeBy {α κ : Type} (key : α → κ) [DecidableEq κ] :
    List κ → List α → List α
  | _, [] => []
  | seen, a :: as =>
    if key a ∈ seen then dedupeBy key seen as
    else a :: dedupeBy key (key a :: seen) as

/-- One input file: path plus content (none when unreadable). -/
structure FileInput where
  path : String
  content : Option (List String)
deriving DecidableEq, Repr

/-- Per-file scan result. -/
structure FileResult where
  nodes : List EntityNode
  edges : List Edge
  diags : List Diagnostic
deriving DecidableEq, Repr

/-- The first symbol, if any, clashing with a distinct symbol on the same
computed identity (fatal for the file's processing). -/
def firstConflict (path : String) (syms : List EnclosingSymbol) :
    Option EnclosingSymbol :=
  syms.find? (fun s => syms.any (fun t =>
    decide (s ≠ t) && decide (identityOf path s = identityOf path t)))

/-- All raw annotations of a file. -/
def fileRaws (path : String) (lines : List String) : List RawAnnot :=
  (spansOf path lines).flatMap extractSpan

/-- Raw annotations paired with their parse/validate outcome. -/
def fileParsed (path : String) (lines : List String) :
    List (RawAnnot × Except Diagnostic AnnotationRecord) :=
  (fileRaws path lines).map (fun r => (r, parseAndValidate path r))

/-- Diagnostics produced by parsing/validating a file's annotations. -/
def fileDiags (path : String) (lines : List String) : List Diagnostic :=
  (fileParsed path lines).filterMap (fun re =>
    match re.2 with
    | .error d => some d
    | .ok _ => none)

/-- The file's validated annotations with their records. -/
def fileValids (path : String) (lines : List String) :
    List (RawAnnot × AnnotationRecord) :=
  (fileParsed path lines).filterMap (fun re =>
    match re.2 with
    | .ok a => some (re.1, a)
    | .error _ => none)

/-- The distinct identities carried by a file's validated annotations. -/
def fileIds (path : String) (lines : List String) : List Identity :=
  ((fileValids path lines).map (fun rv => identityOf path rv.1.symbol)).dedup

/-- The entity nodes built from one file. -/
def fileNodes (path : String) (lines : List String) : List EntityNode :=
  (fileIds path lines).filterMap (buildNode path (fileValids path lines))

/-- The edges built from one file, deduplicated by triple. -/
def fileEdges (path : String) (lines : List String) : List Edge :=
  dedupeBy edgeTriple []
    (containsEdges (fileNodes path lines) ++
     (fileNodes path lines).flatMap semanticEdges)

/-- Scan one file: spans, raw annotations, parse/validate, identity
conflict check, node building and edge construction.  No error aborts the
processing of sibling annotations; an unreadable file yields an `IoError`
diagnostic only. -/
def processFile (f : FileInput) : FileResult :=
  match f.content with
  | none => ⟨[], [], [.ioError f.path]⟩
  | some lines =>
    match firstConflict f.path (((fileRaws f.path lines).map (fun r => r.symbol)).dedup) with
    | some s => ⟨[], [], fileDiags f.path lines ++ [.identityConflictError f.path s.qualName]⟩
    | none => ⟨fileNodes f.path lines, fileEdges f.path lines, fileDiags f.path lines⟩

/-- The knowledge graph: node set and edge set. -/
structure Graph where
  nodes : List EntityNode
  edges : List Edge
deriving DecidableEq, Repr

/-- Strict lexicographic comparison of character lists by code point. -/
def charsLt : List Char → List Char → Bool
  | [], [] => false
  | [], _ :: _ => true
  | _ :: _, [] => false
  | a :: as, b :: bs =>
    if a.toNat < b.toNat then true
    else if b.toNat < a.toNat then false
    else charsLt as bs

/-- Strict lexicographic comparison of strings. -/
def strLt (a b : String) : Bool := charsLt a.data b.data

/-- Lexicographic order on flattened string keys. -/
def keyLe : List String → List String → Bool
  | [], _ => true
  | _ :: _, [] => false
  | a :: as, b :: bs => strLt a b || (a == b && keyLe as bs)

/-- The canonical sort key of a node. -/
def nodeKey (n : EntityNode) : List String :=
  [n.id.path, n.id.qualName, n.id.kindTag]

/-- Boolean node order by key. -/
def nodeLe (a b : EntityNode) : Bool := keyLe (nodeKey a) (nodeKey b)

/-- Boolean edge order by triple. -/
def edgeLe (a b : Edge) : Bool := keyLe (edgeTriple a) (edgeTriple b)

/-- All nodes produced by the per-file scans, in file order. -/
def allNodes (files : List FileInput) : List EntityNode :=
  (files.map processFile).flatMap (fun r => r.nodes)

/-- All edges produced by the per-file scans, in file order. -/
def allEdges (files : List FileInput) : List Edge :=
  (files.map processFile).flatMap (fun r => r.edges)

/-- The canonically ordered graph of a scan. -/
def scanGraph (files : List FileInput) : Graph :=
  ⟨sortLe nodeLe (allNodes files), sortLe edgeLe (allEdges files)⟩

/-- The aggregated diagnostics of a scan. -/
def scanDiags (files : List FileInput) : List Diagnostic :=
  (files.map processFile).flatMap (fun r => r.diags)

/-- Scan a set of input files into a graph and a diagnostics list.  The
graph is canonically ordered by content-derived keys so the output is
byte-for-byte reproducible and independent of file order. -/
def scan (files : List FileInput) : Graph × List Diagnostic :=
  (scanGraph files, scanDiags files)

/-! ## Graph diff -/

/-- The result of diffing two graphs. -/
structure DiffResult where
  added : List EntityNode
  removed : List EntityNode
  changed : List (EntityNode × EntityNode × List String)
deriving DecidableEq, Repr

/-- The top-level field paths on which two merged records differ. -/
def changedFields (a b : AnnotationRecord) : List String :=
  (if a.kind ≠ b.kind then ["kind"] else []) ++
  (if a.description ≠ b.description then ["description"] else []) ++
  (if a.owner ≠ b.owner then ["owner"] else []) ++
  (if a.status ≠ b.status then ["status"] else []) ++
  (if a.tags ≠ b.tags then ["tags"] else []) ++
  (if a.links ≠ b.links then ["links"] else []) ++
  (if a.context ≠ b.context then ["context"] else []) ++
  (if a.dependencies ≠ b.dependencies then ["dependencies"] else []) ++
  (if a.compliance ≠ b.compliance then ["compliance"] else []) ++
  (if a.operational ≠ b.operational then ["operational"] else []) ++
  (if a.extensions ≠ b.extensions then ["extensions"] else [])

/-- Diff two graphs under identical identities: nodes only in the new
graph are added, nodes only in the old graph are removed, and a node
present in both with any differing merged-record field is changed, listing
the differing field paths. -/
def diff (gOld gNew : Graph) : DiffResult :=
  { added := gNew.nodes.filter (fun n =>
      !(gOld.nodes.any (fun m => decide (m.id = n.id))))
    removed := gOld.nodes.filter (fun n =>
      !(gNew.nodes.any (fun m => decide (m.id = n.id))))
    changed := gOld.nodes.filterMap (fun o =>
      match gNew.nodes.find? (fun m => decide (m.id = o.id)) with
      | some n =>
        let cf := changedFields o.record n.record
        if cf.isEmpty then none else some (o, n, cf)
      | none => none) }

/-! ## The embedded fixture corpus -/

/-- Embedded fixture file `packages/cli/src/__tests__/fixtures/sample.py` of the repository. -/
def samplePy : List String :=
  ["\"\"\"",
   "@codegraph",
   "type: function",
   "description: A sample function for testing",
   "owner: test-team",
   "status: stable",
   "tags:",
   "  - testing",
   "  - sample",
   "\"\"\"",
   "def sample_function(x, y):",
   "    \"\"\"Add two numbers together.",
   "",
   "    @codegraph",
   "    type: function",
   "    description: Adds two numbers and returns the result",
   "    owner: test-team",
   "    status: stable",
   "    tags:",
   "      - math",
   "      - utility",
   "    \"\"\"",
   "    return x + y",
   "",
   "",
   "class SampleClass:",
   "    \"\"\"",
   "    @codegraph",
   "    type: class",
   "    description: A sample class for testing",
   "    owner: test-team",
   "    status: experimental",
   "    tags:",
   "      - testing",
   "    \"\"\"",
   "",
   "    def method_one(self):",
   "        \"\"\"",
   "        @codegraph",
   "        type: method",
   "        description: First method of the sample class",
   "        owner: test-team",
   "        \"\"\"",
   "        pass",
   ""]

/-- Embedded fixture file `packages/core/src/suggest/__tests__/fixtures/mixed-project/main.py` of the repository. -/
def mixedMainPy : List String :=
  ["# Entry point for Python",
   "import os",
   "import sys",
   "from pathlib import Path",
   "from typing import Optional",
   "from utils import helper",
   "from config import load_config",
   "",
   "",
   "def main():",
   "    config = load_config()",
   "    helper(config)",
   "    print(\"Running main\")",
   "",
   "",
   "if __name__ == \"__main__\":",
   "    main()",
   ""]

/-- Embedded fixture file `schema/examples/python/example_service.py` of the repository. -/
def exampleServicePy : List String :=
  ["\"\"\"",
   "@codegraph",
   "type: module",
   "description: User authentication service handling login, registration, and token management",
   "owner: auth-team",
   "status: stable",
   "tags: [auth, security, users]",
   "links:",
   "  - type: notion",
   "    url: https://notion.so/auth-design-doc",
   "    title: Auth Design Document",
   "context:",
   "  business_goal: User retention and security",
   "  funnel_stage: activation",
   "  revenue_impact: critical",
   "dependencies:",
   "  services: [user-service, email-service]",
   "  databases: [postgres-main, redis-cache]",
   "compliance:",
   "  regulations: [GDPR, SOC2]",
   "  data_sensitivity: confidential",
   "operational:",
   "  sla: \"99.9%\"",
   "  on_call_team: auth-team",
   "  monitoring_dashboards:",
   "    - type: datadog",
   "      url: https://app.datadoghq.com/dashboard/auth",
   "      title: Auth Service Dashboard",
   "\"\"\"",
   "",
   "from dataclasses import dataclass",
   "from typing import Optional",
   "",
   "",
   "@dataclass(frozen=True)",
   "class AuthResult:",
   "    \"\"\"Result of an authentication attempt.\"\"\"",
   "    success: bool",
   "    token: Optional[str]",
   "    error: Optional[str] = None",
   "",
   "",
   "def authenticate_user(email: str, password: str) -> AuthResult:",
   "    \"\"\"",
   "    @codegraph",
   "    type: function",
   "    description: Authenticates user credentials and returns JWT token",
   "    owner: auth-team",
   "    status: stable",
   "    tags: [auth, login, jwt]",
   "    context:",
   "      funnel_stage: activation",
   "      revenue_impact: critical",
   "    \"\"\"",
   "    # Implementation omitted for example purposes",
   "    pass",
   "",
   "",
   "def register_user(email: str, password: str, name: str) -> AuthResult:",
   "    \"\"\"",
   "    @codegraph",
   "    type: function",
   "    description: Creates a new user account and sends verification email",
   "    owner: auth-team",
   "    status: stable",
   "    tags: [auth, registration, onboarding]",
   "    context:",
   "      funnel_stage: acquisition",
   "      revenue_impact: high",
   "    dependencies:",
   "      services: [email-service]",
   "    \"\"\"",
   "    pass",
   "",
   "",
   "def refresh_token(token: str) -> AuthResult:",
   "    \"\"\"",
   "    @codegraph",
   "    type: function",
   "    description: Refreshes an expired JWT token using the refresh token",
   "    owner: auth-team",
   "    status: experimental",
   "    tags: [auth, jwt, token-refresh]",
   "    \"\"\"",
   "    pass"]

/-- Embedded fixture file `examples/python-fastapi/main.py` of the repository. -/
def fastapiMainPy : List String :=
  ["\"\"\"",
   "@codegraph",
   "type: module",
   "description: FastAPI application entry point for the e-commerce API",
   "owner: platform-team",
   "status: stable",
   "tags: [api, fastapi, e-commerce]",
   "links:",
   "  - type: notion",
   "    url: https://notion.so/api-architecture",
   "    title: API Architecture Document",
   "context:",
   "  business_goal: Provide REST API for e-commerce frontend",
   "  funnel_stage: activation",
   "  revenue_impact: critical",
   "dependencies:",
   "  services: [auth-service, payment-service, inventory-service]",
   "  databases: [postgres-main, redis-cache]",
   "operational:",
   "  sla: \"99.9%\"",
   "  on_call_team: platform-team",
   "  monitoring_dashboards:",
   "    - type: datadog",
   "      url: https://app.datadoghq.com/dashboard/ecommerce-api",
   "      title: E-Commerce API Dashboard",
   "\"\"\"",
   "",
   "from fastapi import FastAPI, Depends",
   "from .routers import users, products, orders",
   "from .auth import get_current_user",
   "",
   "app = FastAPI(title=\"E-Commerce API\", version=\"1.0.0\")",
   "",
   "app.include_router(users.router, prefix=\"/api/v1/users\")",
   "app.include_router(products.router, prefix=\"/api/v1/products\")",
   "app.include_router(orders.router, prefix=\"/api/v1/orders\")",
   "",
   "",
   "def create_app() -> FastAPI:",
   "    \"\"\"",
   "    @codegraph",
   "    type: function",
   "    description: Factory function that creates and configures the FastAPI application instance",
   "    owner: platform-team",
   "    status: stable",
   "    tags: [api, factory, configuration]",
   "    \"\"\"",
   "    application = FastAPI(",
   "        title=\"E-Commerce API\",",
   "        version=\"1.0.0\",",
   "        docs_url=\"/api/docs\",",
   "        redoc_url=\"/api/redoc\",",
   "    )",
   "    application.include_router(users.router, prefix=\"/api/v1/users\")",
   "    application.include_router(products.router, prefix=\"/api/v1/products\")",
   "    application.include_router(orders.router, prefix=\"/api/v1/orders\")",
   "    return application",
   ""]

/-- Embedded fixture file `examples/python-fastapi/auth.py` of the repository. -/
def authPy : List String :=
  ["\"\"\"",
   "@codegraph",
   "type: module",
   "description: Authentication and authorization module handling JWT tokens and user verification",
   "owner: auth-team",
   "status: stable",
   "tags: [auth, security, jwt]",
   "links:",
   "  - type: notion",
   "    url: https://notion.so/auth-design",
   "    title: Authentication Design Document",
   "  - type: github",
   "    url: https://github.com/example/api-docs/blob/main/auth.md",
   "    title: Auth API Documentation",
   "context:",
   "  business_goal: Secure user authentication and session management",
   "  funnel_stage: activation",
   "  revenue_impact: critical",
   "dependencies:",
   "  services: [user-service]",
   "  databases: [redis-cache]",
   "compliance:",
   "  regulations: [GDPR, SOC2]",
   "  data_sensitivity: confidential",
   "  audit_requirements: [auth-audit-trail, failed-login-tracking]",
   "operational:",
   "  sla: \"99.99%\"",
   "  on_call_team: auth-team",
   "\"\"\"",
   "",
   "from dataclasses import dataclass",
   "from typing import Optional",
   "from fastapi import Depends, HTTPException",
   "from fastapi.security import HTTPBearer, HTTPAuthorizationCredentials",
   "",
   "",
   "security = HTTPBearer()",
   "",
   "",
   "@dataclass(frozen=True)",
   "class CurrentUser:",
   "    \"\"\"Authenticated user context extracted from JWT token.\"\"\"",
   "    id: str",
   "    email: str",
   "    roles: tuple[str, ...]",
   "",
   "",
   "def get_current_user(",
   "    credentials: HTTPAuthorizationCredentials = Depends(security),",
   ") -> CurrentUser:",
   "    \"\"\"",
   "    @codegraph",
   "    type: function",
   "    description: Extracts and validates JWT token from request headers, returning the authenticated user",
   "    owner: auth-team",
   "    status: stable",
   "    tags: [auth, jwt, middleware]",
   "    context:",
   "      funnel_stage: activation",
   "      revenue_impact: critical",
   "    compliance:",
   "      regulations: [SOC2]",
   "      data_sensitivity: confidential",
   "    \"\"\"",
   "    token = credentials.credentials",
   "    payload = _decode_jwt(token)",
   "    if payload is None:",
   "        raise HTTPException(status_code=401, detail=\"Invalid or expired token\")",
   "    return CurrentUser(",
   "        id=payload[\"sub\"],",
   "        email=payload[\"email\"],",
   "        roles=tuple(payload.get(\"roles\", [])),",
   "    )",
   "",
   "",
   "def _decode_jwt(token: str) -> Optional[dict]:",
   "    \"\"\"",
   "    @codegraph",
   "    type: function",
   "    description: Decodes and validates a JWT token, checking expiry and signature",
   "    owner: auth-team",
   "    status: stable",
   "    tags: [auth, jwt, crypto]",
   "    compliance:",
   "      regulations: [SOC2]",
   "      data_sensitivity: confidential",
   "    \"\"\"",
   "    # Implementation omitted for example purposes",
   "    pass",
   ""]

/-- Embedded fixture file `examples/python-fastapi/services/payment.py` of the repository. -/
def paymentPy : List String :=
  ["\"\"\"",
   "@knowgraph",
   "type: module",
   "description: Payment processing service integrating with Stripe for charges, refunds, and subscription billing",
   "owner: payments-team",
   "status: stable",
   "tags: [payments, billing, stripe]",
   "links:",
   "  - type: confluence",
   "    url: https://confluence.example.com/payments/architecture",
   "    title: Payment Architecture Overview",
   "  - type: jira",
   "    url: https://jira.example.com/browse/PAY-100",
   "    title: Payment Service Epic",
   "context:",
   "  business_goal: Revenue processing and subscription management",
   "  funnel_stage: revenue",
   "  revenue_impact: critical",
   "dependencies:",
   "  services: [notification-service]",
   "  external_apis: [stripe-api]",
   "  databases: [postgres-main]",
   "compliance:",
   "  regulations: [PCI-DSS, SOC2]",
   "  data_sensitivity: restricted",
   "  audit_requirements: [transaction-logging, pci-audit-trail]",
   "operational:",
   "  sla: \"99.99%\"",
   "  on_call_team: payments-team",
   "  monitoring_dashboards:",
   "    - type: datadog",
   "      url: https://app.datadoghq.com/dashboard/payments",
   "      title: Payment Processing Dashboard",
   "\"\"\"",
   "",
   "from dataclasses import dataclass",
   "from typing import Optional",
   "",
   "",
   "@dataclass(frozen=True)",
   "class PaymentResult:",
   "    \"\"\"Result of a payment operation.\"\"\"",
   "    success: bool",
   "    transaction_id: Optional[str]",
   "    error: Optional[str] = None",
   "",
   "",
   "def process_payment(",
   "    customer_id: str,",
   "    amount_cents: int,",
   "    currency: str,",
   "    payment_method_id: str,",
   ") -> PaymentResult:",
   "    \"\"\"",
   "    @knowgraph",
   "    type: function",
   "    description: Processes a one-time payment charge through Stripe with idempotency and retry logic",
   "    owner: payments-team",
   "    status: stable",
   "    tags: [payments, charge, stripe]",
   "    context:",
   "      funnel_stage: revenue",
   "      revenue_impact: critical",
   "    compliance:",
   "      regulations: [PCI-DSS]",
   "      data_sensitivity: restricted",
   "    \"\"\"",
   "    pass",
   "",
   "",
   "def process_refund(",
   "    transaction_id: str,",
   "    refund_amount_cents: int,",
   ") -> PaymentResult:",
   "    \"\"\"",
   "    @knowgraph",
   "    type: function",
   "    description: Issues a full or partial refund for a completed payment through Stripe",
   "    owner: payments-team",
   "    status: stable",
   "    tags: [payments, refund, stripe]",
   "    context:",
   "      funnel_stage: retention",
   "      revenue_impact: high",
   "    compliance:",
   "      regulations: [PCI-DSS]",
   "      data_sensitivity: restricted",
   "      audit_requirements: [refund-audit-trail]",
   "    \"\"\"",
   "    pass",
   ""]

/-- Embedded fixture file `examples/python-fastapi/services/notification.py` of the repository. -/
def notificationPy : List String :=
  ["\"\"\"",
   "@knowgraph",
   "type: module",
   "description: Notification service handling email, SMS, and push notifications for user events",
   "owner: platform-team",
   "status: stable",
   "tags: [notifications, email, sms, push]",
   "links:",
   "  - type: notion",
   "    url: https://notion.so/notification-strategy",
   "    title: Notification Strategy Document",
   "context:",
   "  business_goal: User engagement and transactional communication",
   "  funnel_stage: retention",
   "  revenue_impact: medium",
   "dependencies:",
   "  external_apis: [sendgrid-api, twilio-api, firebase-fcm]",
   "  databases: [postgres-main, redis-cache]",
   "\"\"\"",
   "",
   "from dataclasses import dataclass",
   "from typing import Optional",
   "",
   "",
   "@dataclass(frozen=True)",
   "class NotificationResult:",
   "    \"\"\"Result of a notification dispatch attempt.\"\"\"",
   "    success: bool",
   "    message_id: Optional[str]",
   "    error: Optional[str] = None",
   "",
   "",
   "def send_email(",
   "    to_email: str,",
   "    template_id: str,",
   "    template_data: dict,",
   ") -> NotificationResult:",
   "    \"\"\"",
   "    @knowgraph",
   "    type: function",
   "    description: Sends a transactional email using SendGrid templates with retry and tracking",
   "    owner: platform-team",
   "    status: stable",
   "    tags: [notifications, email, sendgrid]",
   "    context:",
   "      funnel_stage: retention",
   "      revenue_impact: medium",
   "    dependencies:",
   "      external_apis: [sendgrid-api]",
   "    \"\"\"",
   "    pass",
   "",
   "",
   "def send_order_confirmation(",
   "    user_email: str,",
   "    order_id: str,",
   "    order_total_cents: int,",
   ") -> NotificationResult:",
   "    \"\"\"",
   "    @knowgraph",
   "    type: function",
   "    description: Sends order confirmation email with receipt and tracking information",
   "    owner: platform-team",
   "    status: stable",
   "    tags: [notifications, email, orders]",
   "    context:",
   "      funnel_stage: revenue",
   "      revenue_impact: high",
   "    \"\"\"",
   "    pass",
   ""]

/-- Embedded fixture file `examples/python-fastapi/routers/users.py` of the repository. -/
def usersRouterPy : List String :=
  ["\"\"\"",
   "@codegraph",
   "type: module",
   "description: User management REST endpoints handling registration, profiles, and account operations",
   "owner: platform-team",
   "status: stable",
   "tags: [users, api, rest]",
   "context:",
   "  business_goal: Core user management for the platform",
   "  funnel_stage: acquisition",
   "  revenue_impact: high",
   "dependencies:",
   "  services: [email-service, notification-service]",
   "  databases: [postgres-main]",
   "compliance:",
   "  regulations: [GDPR]",
   "  data_sensitivity: confidential",
   "\"\"\"",
   "",
   "from fastapi import APIRouter, Depends, HTTPException",
   "from ..auth import get_current_user, CurrentUser",
   "from ..models.user import UserCreate, UserUpdate, UserResponse",
   "",
   "router = APIRouter(tags=[\"users\"])",
   "",
   "",
   "def create_user(user_data: UserCreate) -> UserResponse:",
   "    \"\"\"",
   "    @codegraph",
   "    type: function",
   "    description: Registers a new user account with email verification and welcome notification",
   "    owner: platform-team",
   "    status: stable",
   "    tags: [users, registration, onboarding]",
   "    context:",
   "      funnel_stage: acquisition",
   "      revenue_impact: high",
   "    compliance:",
   "      regulations: [GDPR]",
   "      data_sensitivity: confidential",
   "    \"\"\"",
   "    # Implementation omitted for example purposes",
   "    pass",
   "",
   "",
   "def get_user_profile(",
   "    current_user: CurrentUser = Depends(get_current_user),",
   ") -> UserResponse:",
   "    \"\"\"",
   "    @codegraph",
   "    type: function",
   "    description: Returns the authenticated user\x27s profile information",
   "    owner: platform-team",
   "    status: stable",
   "    tags: [users, profile, read]",
   "    context:",
   "      funnel_stage: activation",
   "      revenue_impact: medium",
   "    \"\"\"",
   "    pass",
   "",
   "",
   "def update_user_profile(",
   "    user_data: UserUpdate,",
   "    current_user: CurrentUser = Depends(get_current_user),",
   ") -> UserResponse:",
   "    \"\"\"",
   "    @codegraph",
   "    type: function",
   "    description: Updates the authenticated user\x27s profile fields",
   "    owner: platform-team",
   "    status: stable",
   "    tags: [users, profile, update]",
   "    context:",
   "      funnel_stage: retention",
   "      revenue_impact: medium",
   "    compliance:",
   "      regulations: [GDPR]",
   "      data_sensitivity: confidential",
   "    \"\"\"",
   "    pass",
   "",
   "",
   "def delete_user_account(",
   "    current_user: CurrentUser = Depends(get_current_user),",
   ") -> dict:",
   "    \"\"\"",
   "    @codegraph",
   "    type: function",
   "    description: Soft-deletes a user account and triggers GDPR data cleanup workflows",
   "    owner: platform-team",
   "    status: stable",
   "    tags: [users, delete, gdpr, compliance]",
   "    context:",
   "      funnel_stage: retention",
   "      revenue_impact: low",
   "    compliance:",
   "      regulations: [GDPR]",
   "      data_sensitivity: confidential",
   "      audit_requirements: [account-deletion-log]",
   "    \"\"\"",
   "    pass",
   ""]

/-- Embedded fixture file `examples/python-fastapi/routers/products.py` of the repository. -/
def productsRouterPy : List String :=
  ["\"\"\"",
   "@codegraph",
   "type: module",
   "description: Product catalog REST endpoints for browsing, searching, and managing products",
   "owner: catalog-team",
   "status: stable",
   "tags: [products, catalog, api, rest]",
   "links:",
   "  - type: notion",
   "    url: https://notion.so/product-catalog-spec",
   "    title: Product Catalog Specification",
   "context:",
   "  business_goal: Product discovery and catalog management",
   "  funnel_stage: activation",
   "  revenue_impact: high",
   "dependencies:",
   "  services: [search-service, inventory-service]",
   "  databases: [postgres-main, redis-cache]",
   "\"\"\"",
   "",
   "from fastapi import APIRouter, Depends, Query",
   "from ..auth import get_current_user, CurrentUser",
   "from ..models.product import ProductCreate, ProductResponse",
   "",
   "router = APIRouter(tags=[\"products\"])",
   "",
   "",
   "def list_products(",
   "    category: str = Query(None),",
   "    min_price: float = Query(None),",
   "    max_price: float = Query(None),",
   "    page: int = Query(1, ge=1),",
   "    limit: int = Query(20, ge=1, le=100),",
   ") -> list[ProductResponse]:",
   "    \"\"\"",
   "    @codegraph",
   "    type: function",
   "    description: Returns paginated product listings with optional category and price filters",
   "    owner: catalog-team",
   "    status: stable",
   "    tags: [products, list, search, pagination]",
   "    context:",
   "      funnel_stage: activation",
   "      revenue_impact: high",
   "    \"\"\"",
   "    pass",
   "",
   "",
   "def get_product(product_id: str) -> ProductResponse:",
   "    \"\"\"",
   "    @codegraph",
   "    type: function",
   "    description: Retrieves detailed product information by ID including inventory status",
   "    owner: catalog-team",
   "    status: stable",
   "    tags: [products, detail, read]",
   "    context:",
   "      funnel_stage: activation",
   "      revenue_impact: high",
   "    \"\"\"",
   "    pass",
   "",
   "",
   "def create_product(",
   "    product_data: ProductCreate,",
   "    current_user: CurrentUser = Depends(get_current_user),",
   ") -> ProductResponse:",
   "    \"\"\"",
   "    @codegraph",
   "    type: function",
   "    description: Creates a new product listing in the catalog (admin only)",
   "    owner: catalog-team",
   "    status: stable",
   "    tags: [products, create, admin]",
   "    context:",
   "      funnel_stage: revenue",
   "      revenue_impact: high",
   "    \"\"\"",
   "    pass",
   "",
   "",
   "def search_products(",
   "    q: str = Query(..., min_length=2),",
   "    page: int = Query(1, ge=1),",
   "    limit: int = Query(20, ge=1, le=100),",
   ") -> list[ProductResponse]:",
   "    \"\"\"",
   "    @codegraph",
   "    type: function",
   "    description: Full-text search across product names, descriptions, and tags",
   "    owner: catalog-team",
   "    status: experimental",
   "    tags: [products, search, full-text]",
   "    context:",
   "      funnel_stage: activation",
   "      revenue_impact: high",
   "    dependencies:",
   "      services: [search-service]",
   "    \"\"\"",
   "    pass",
   ""]

/-- Embedded fixture file `examples/python-fastapi/routers/orders.py` of the repository. -/
def ordersRouterPy : List String :=
  ["\"\"\"",
   "@knowgraph",
   "type: module",
   "description: Order management REST endpoints handling order creation, tracking, and fulfillment",
   "owner: orders-team",
   "status: stable",
   "tags: [orders, api, rest, fulfillment]",
   "links:",
   "  - type: jira",
   "    url: https://jira.example.com/browse/ORD-200",
   "    title: Order Management Epic",
   "context:",
   "  business_goal: Order processing and fulfillment pipeline",
   "  funnel_stage: revenue",
   "  revenue_impact: critical",
   "dependencies:",
   "  services: [payment-service, inventory-service, notification-service]",
   "  databases: [postgres-main]",
   "compliance:",
   "  regulations: [PCI-DSS]",
   "  data_sensitivity: confidential",
   "\"\"\"",
   "",
   "from fastapi import APIRouter, Depends, HTTPException",
   "from ..auth import get_current_user, CurrentUser",
   "from ..models.order import OrderCreate, OrderResponse",
   "",
   "router = APIRouter(tags=[\"orders\"])",
   "",
   "",
   "def create_order(",
   "    order_data: OrderCreate,",
   "    current_user: CurrentUser = Depends(get_current_user),",
   ") -> OrderResponse:",
   "    \"\"\"",
   "    @knowgraph",
   "    type: function",
   "    description: Creates a new order, reserves inventory, and initiates payment processing",
   "    owner: orders-team",
   "    status: stable",
   "    tags: [orders, create, payment, inventory]",
   "    context:",
   "      funnel_stage: revenue",
   "      revenue_impact: critical",
   "    dependencies:",
   "      services: [payment-service, inventory-service]",
   "    compliance:",
   "      regulations: [PCI-DSS]",
   "      data_sensitivity: confidential",
   "    \"\"\"",
   "    pass",
   "",
   "",
   "def get_order(",
   "    order_id: str,",
   "    current_user: CurrentUser = Depends(get_current_user),",
   ") -> OrderResponse:",
   "    \"\"\"",
   "    @knowgraph",
   "    type: function",
   "    description: Retrieves order details including line items and current fulfillment status",
   "    owner: orders-team",
   "    status: stable",
   "    tags: [orders, detail, tracking]",
   "    context:",
   "      funnel_stage: retention",
   "      revenue_impact: medium",
   "    \"\"\"",
   "    pass",
   "",
   "",
   "def list_orders(",
   "    current_user: CurrentUser = Depends(get_current_user),",
   ") -> list[OrderResponse]:",
   "    \"\"\"",
   "    @knowgraph",
   "    type: function",
   "    description: Lists all orders for the authenticated user with pagination",
   "    owner: orders-team",
   "    status: stable",
   "    tags: [orders, list, history]",
   "    context:",
   "      funnel_stage: retention",
   "      revenue_impact: medium",
   "    \"\"\"",
   "    pass",
   "",
   "",
   "def cancel_order(",
   "    order_id: str,",
   "    current_user: CurrentUser = Depends(get_current_user),",
   ") -> OrderResponse:",
   "    \"\"\"",
   "    @knowgraph",
   "    type: function",
   "    description: Cancels a pending order, releases inventory holds, and initiates refund if payment was captured",
   "    owner: orders-team",
   "    status: stable",
   "    tags: [orders, cancel, refund]",
   "    context:",
   "      funnel_stage: retention",
   "      revenue_impact: high",
   "    dependencies:",
   "      services: [payment-service, inventory-service]",
   "    \"\"\"",
   "    pass",
   ""]

/-- Embedded fixture file `examples/python-fastapi/models/user.py` of the repository. -/
def userModelPy : List String :=
  ["\"\"\"",
   "@knowgraph",
   "type: module",
   "description: User data models and Pydantic schemas for request/response validation",
   "owner: platform-team",
   "status: stable",
   "tags: [users, models, validation]",
   "compliance:",
   "  regulations: [GDPR]",
   "  data_sensitivity: confidential",
   "\"\"\"",
   "",
   "from dataclasses import dataclass",
   "from typing import Optional",
   "from datetime import datetime",
   "",
   "",
   "@dataclass(frozen=True)",
   "class UserCreate:",
   "    \"\"\"",
   "    @knowgraph",
   "    type: class",
   "    description: Pydantic schema for user registration request validation",
   "    owner: platform-team",
   "    status: stable",
   "    tags: [users, models, validation, input]",
   "    \"\"\"",
   "    email: str",
   "    name: str",
   "    password: str",
   "",
   "",
   "@dataclass(frozen=True)",
   "class UserUpdate:",
   "    \"\"\"",
   "    @knowgraph",
   "    type: class",
   "    description: Pydantic schema for user profile update request with optional fields",
   "    owner: platform-team",
   "    status: stable",
   "    tags: [users, models, validation, input]",
   "    \"\"\"",
   "    name: Optional[str] = None",
   "    avatar_url: Optional[str] = None",
   "    bio: Optional[str] = None",
   "",
   "",
   "@dataclass(frozen=True)",
   "class UserResponse:",
   "    \"\"\"",
   "    @knowgraph",
   "    type: class",
   "    description: Pydantic schema for user API responses, excludes sensitive fields like password",
   "    owner: platform-team",
   "    status: stable",
   "    tags: [users, models, response]",
   "    compliance:",
   "      regulations: [GDPR]",
   "      data_sensitivity: confidential",
   "    \"\"\"",
   "    id: str",
   "    email: str",
   "    name: str",
   "    avatar_url: Optional[str]",
   "    created_at: datetime",
   ""]

/-- Embedded fixture file `examples/python-fastapi/models/order.py` of the repository. -/
def orderModelPy : List String :=
  ["\"\"\"",
   "@codegraph",
   "type: module",
   "description: Order data models and Pydantic schemas for order management",
   "owner: orders-team",
   "status: stable",
   "tags: [orders, models, validation]",
   "compliance:",
   "  regulations: [PCI-DSS]",
   "  data_sensitivity: confidential",
   "\"\"\"",
   "",
   "from dataclasses import dataclass",
   "from typing import Optional",
   "from datetime import datetime",
   "",
   "",
   "@dataclass(frozen=True)",
   "class OrderLineItem:",
   "    \"\"\"",
   "    @codegraph",
   "    type: class",
   "    description: Represents a single line item within an order with product reference and quantity",
   "    owner: orders-team",
   "    status: stable",
   "    tags: [orders, models, line-items]",
   "    \"\"\"",
   "    product_id: str",
   "    quantity: int",
   "    price_cents: int",
   "",
   "",
   "@dataclass(frozen=True)",
   "class OrderCreate:",
   "    \"\"\"",
   "    @codegraph",
   "    type: class",
   "    description: Pydantic schema for order creation requests with line items and shipping details",
   "    owner: orders-team",
   "    status: stable",
   "    tags: [orders, models, validation, input]",
   "    \"\"\"",
   "    items: list",
   "    shipping_address: str",
   "    payment_method_id: str",
   "",
   "",
   "@dataclass(frozen=True)",
   "class OrderResponse:",
   "    \"\"\"",
   "    @codegraph",
   "    type: class",
   "    description: Pydantic schema for order API responses including fulfillment tracking info",
   "    owner: orders-team",
   "    status: stable",
   "    tags: [orders, models, response, tracking]",
   "    compliance:",
   "      regulations: [PCI-DSS]",
   "      data_sensitivity: confidential",
   "    \"\"\"",
   "    id: str",
   "    user_id: str",
   "    items: list",
   "    total_cents: int",
   "    status: str",
   "    tracking_number: Optional[str]",
   "    created_at: datetime",
   "    updated_at: datetime",
   ""]

/-- Embedded fixture file `examples/python-fastapi/models/product.py` of the repository. -/
def productModelPy : List String :=
  ["\"\"\"",
   "@knowgraph",
   "type: module",
   "description: Product data models and Pydantic schemas for catalog management",
   "owner: catalog-team",
   "status: stable",
   "tags: [products, models, catalog]",
   "\"\"\"",
   "",
   "from dataclasses import dataclass",
   "from typing import Optional",
   "from datetime import datetime",
   "",
   "",
   "@dataclass(frozen=True)",
   "class ProductCreate:",
   "    \"\"\"",
   "    @knowgraph",
   "    type: class",
   "    description: Pydantic schema for product creation requests with required catalog fields",
   "    owner: catalog-team",
   "    status: stable",
   "    tags: [products, models, validation, input]",
   "    \"\"\"",
   "    name: str",
   "    description: str",
   "    price_cents: int",
   "    category: str",
   "    sku: str",
   "    inventory_count: int",
   "",
   "",
   "@dataclass(frozen=True)",
   "class ProductResponse:",
   "    \"\"\"",
   "    @knowgraph",
   "    type: class",
   "    description: Pydantic schema for product API responses including availability status",
   "    owner: catalog-team",
   "    status: stable",
   "    tags: [products, models, response]",
   "    \"\"\"",
   "    id: str",
   "    name: str",
   "    description: str",
   "    price_cents: int",
   "    category: str",
   "    sku: str",
   "    in_stock: bool",
   "    created_at: datetime",
   "    updated_at: datetime",
   ""]

/-- The fixture corpus: every repository source file, with its path. -/
def corpusFiles : List (String × List String) :=
  [("packages/cli/src/__tests__/fixtures/sample.py", samplePy),
   ("packages/core/src/suggest/__tests__/fixtures/mixed-project/main.py", mixedMainPy),
   ("schema/examples/python/example_service.py", exampleServicePy),
   ("examples/python-fastapi/main.py", fastapiMainPy),
   ("examples/python-fastapi/auth.py", authPy),
   ("examples/python-fastapi/services/payment.py", paymentPy),
   ("examples/python-fastapi/services/notification.py", notificationPy),
   ("examples/python-fastapi/routers/users.py", usersRouterPy),
   ("examples/python-fastapi/routers/products.py", productsRouterPy),
   ("examples/python-fastapi/routers/orders.py", ordersRouterPy),
   ("examples/python-fastapi/models/user.py", userModelPy),
   ("examples/python-fastapi/models/order.py", orderModelPy),
   ("examples/python-fastapi/models/product.py", productModelPy)]

/-! ## Sorting machinery: permutation and sortedness of `sortLe` -/

theorem insertLe_perm {α : Type} (le : α → α → Bool) (a : α) (l : List α) :
    (insertLe le a l).Perm (a :: l) := by
  induction l with
  | nil => simp [insertLe]
  | cons b bs ih =>
    by_cases h : le a b = true
    · simp [insertLe, h]
    · simp only [insertLe, h, if_false]
      exact (ih.cons b).trans (List.Perm.swap a b bs)

theorem sortLe_perm {α : Type} (le : α → α → Bool) (l : List α) :
    (sortLe le l).Perm l := by
  induction l with
  | nil => simp [sortLe]
  | cons a l ih => exact (insertLe_perm le a (sortLe le l)).trans (ih.cons a)

theorem mem_insertLe {α : Type} {le : α → α → Bool} {a x : α} {l : List α} :
    x ∈ insertLe le a l ↔ x = a ∨ x ∈ l := by
  have := (insertLe_perm le a l).mem_iff (a := x)
  simpa using this

theorem insertLe_pairwise {α : Type} {le : α → α → Bool}
    (htrans : ∀ x y z, le x y = true → le y z = true → le x z = true)
    (htot : ∀ x y, le x y = true ∨ le y x = true)
    (a : α) {l : List α} (h : l.Pairwise (fun x y => le x y = true)) :
    (insertLe le a l).Pairwise (fun x y => le x y = true) := by
  induction l with
  | nil => simp [insertLe]
  | cons b bs ih =>
    rcases List.pairwise_cons.1 h with ⟨hb, hbs⟩
    by_cases hab : le a b = true
    · simp only [insertLe, hab, if_true]
      refine List.pairwise_cons.2 ⟨?_, h⟩
      intro y hy
      rcases List.mem_cons.1 hy with rfl | hy
      · exact hab
      · exact htrans a b y hab (hb y hy)
    · simp only [insertLe, hab, if_false]
      refine List.pairwise_cons.2 ⟨?_, ih hbs⟩
      intro y hy
      rcases mem_insertLe.1 hy with heq | hy
      · rw [heq]
        rcases htot a b with h' | h'
        · exact absurd h' hab
        · exact h'
      · exact hb y hy

theorem sortLe_pairwise {α : Type} {le : α → α → Bool}
    (htrans : ∀ x y z, le x y = true → le y z = true → le x z = true)
    (htot : ∀ x y, le x y = true ∨ le y x = true) (l : List α) :
    (sortLe le l).Pairwise (fun x y => le x y = true) := by
  induction l with
  | nil => simp [sortLe]
  | cons a l ih => exact insertLe_pairwise htrans htot a ih

/-! ## Properties of the lexicographic key order -/

theorem charToNat_inj {a b : Char} (h : a.toNat = b.toNat) : a = b := by
  have h2 : a.val = b.val := by
    unfold Char.toNat at h
    exact UInt32.toNat.inj h
  exact Char.ext h2

theorem charsLt_asymm : ∀ as bs : List Char,
    charsLt as bs = true → charsLt bs as = false := by
  intro as
  induction as with
  | nil =>
    intro bs h
    cases bs with
    | nil => exact absurd h (by simp [charsLt])
    | cons b bs => rfl
  | cons a as ih =>
    intro bs h
    cases bs with
    | nil => exact absurd h (by simp [charsLt])
    | cons b bs =>
      by_cases h₁ : a.toNat < b.toNat
      · have h₂ : ¬ b.toNat < a.toNat := by omega
        simp [charsLt, h₁, h₂]
      · by_cases h₂ : b.toNat < a.toNat
        · simp [charsLt, h₁, h₂] at h
        · have h₃ : charsLt as bs = true := by simpa [charsLt, h₁, h₂] using h
          simp [charsLt, h₁, h₂, ih bs h₃]

theorem charsLt_trans : ∀ as bs cs : List Char,
    charsLt as bs = true → charsLt bs cs = true → charsLt as cs = true := by
  intro as
  induction as with
  | nil =>
    intro bs cs h₁ h₂
    cases bs with
    | nil => exact absurd h₁ (by simp [charsLt])
    | cons b bs =>
      cases cs with
      | nil => exact absurd h₂ (by simp [charsLt])
      | cons c cs => rfl
  | cons a as ih =>
    intro bs cs h₁ h₂
    cases bs with
    | nil => exact absurd h₁ (by simp [charsLt])
    | cons b bs =>
      cases cs with
      | nil => exact absurd h₂ (by simp [charsLt])
      | cons c cs =>
        by_cases hab : a.toNat < b.toNat
        · by_cases hbc : b.toNat < c.toNat
          · have hac : a.toNat < c.toNat := by omega
            simp [charsLt, hac]
          · by_cases hcb : c.toNat < b.toNat
            · simp [charsLt, hbc, hcb] at h₂
            · have hac : a.toNat < c.toNat := by omega
              simp [charsLt, hac]
        · by_cases hba : b.toNat < a.toNat
          · simp [charsLt, hab, hba] at h₁
          · have h₁' : charsLt as bs = true := by simpa [charsLt, hab, hba] using h₁
            by_cases hbc : b.toNat < c.toNat
            · have hac : a.toNat < c.toNat := by omega
              simp [charsLt, hac]
            · by_cases hcb : c.toNat < b.toNat
              · simp [charsLt, hbc, hcb] at h₂
              · have h₂' : charsLt bs cs = true := by simpa [charsLt, hbc, hcb] using h₂
                have hac : ¬ a.toNat < c.toNat := by omega
                have hca : ¬ c.toNat < a.toNat := by omega
                simp [charsLt, hac, hca, ih bs cs h₁' h₂']

theorem charsLt_connex : ∀ as bs : List Char,
    charsLt as bs = true ∨ charsLt bs as = true ∨ as = bs := by
  intro as
  induction as with
  | nil =>
    intro bs
    cases bs with
    | nil => exact Or.inr (Or.inr rfl)
    | cons b bs => exact Or.inl rfl
  | cons a as ih =>
    intro bs
    cases bs with
    | nil => exact Or.inr (Or.inl rfl)
    | cons b bs =>
      by_cases hab : a.toNat < b.toNat
      · left; simp [charsLt, hab]
      · by_cases hba : b.toNat < a.toNat
        · right; left; simp [charsLt, hba]
        · have hEq : a = b := charToNat_inj (by omega)
          rcases ih bs with h | h | h
          · left; simp [charsLt, hab, hba, h]
          · right; left; simp [charsLt, hab, hba, h, hEq]
          · right; right; rw [hEq, h]

theorem charsLt_irrefl : ∀ as : List Char, charsLt as as = false := by
  intro as
  induction as with
  | nil => rfl
  | cons a as ih => simp [charsLt, ih]

theorem strLt_irrefl (a : String) : strLt a a = false :=
  charsLt_irrefl a.data

theorem strLt_asymm {a b : String} (h : strLt a b = true) : strLt b a = false :=
  charsLt_asymm a.data b.data h

theorem strLt_trans {a b c : String} (h₁ : strLt a b = true)
    (h₂ : strLt b c = true) : strLt a c = true :=
  charsLt_trans a.data b.data c.data h₁ h₂

theorem strLt_connex (a b : String) :
    strLt a b = true ∨ strLt b a = true ∨ a = b := by
  rcases charsLt_connex a.data b.data with h | h | h
  · exact Or.inl h
  · exact Or.inr (Or.inl h)
  · exact Or.inr (Or.inr (String.ext h))

theorem keyLe_total : ∀ a b : List String, keyLe a b = true ∨ keyLe b a = true := by
  intro a
  induction a with
  | nil => intro b; left; simp [keyLe]
  | cons x xs ih =>
    intro b
    cases b with
    | nil => right; simp [keyLe]
    | cons y ys =>
      rcases strLt_connex x y with h | h | h
      · left; simp [keyLe, h]
      · right; simp [keyLe, h]
      · subst h
        rcases ih ys with h' | h'
        · left; simp [keyLe, h']
        · right; simp [keyLe, h']

theorem keyLe_trans : ∀ a b c : List String,
    keyLe a b = true → keyLe b c = true → keyLe a c = true := by
  intro a
  induction a with
  | nil => intro b c _ _; simp [keyLe]
  | cons x xs ih =>
    intro b c hab hbc
    cases b with
    | nil => simp [keyLe] at hab
    | cons y ys =>
      cases c with
      | nil => simp [keyLe] at hbc
      | cons z zs =>
        simp only [keyLe, Bool.or_eq_true, Bool.and_eq_true, beq_iff_eq] at hab hbc ⊢
        rcases hab with h₁ | ⟨rfl, h₁⟩
        · rcases hbc with h₂ | ⟨rfl, _⟩
          · exact Or.inl (strLt_trans h₁ h₂)
          · exact Or.inl h₁
        · rcases hbc with h₂ | ⟨rfl, h₂⟩
          · exact Or.inl h₂
          · exact Or.inr ⟨rfl, ih ys zs h₁ h₂⟩

theorem keyLe_antisymm : ∀ a b : List String,
    keyLe a b = true → keyLe b a = true → a = b := by
  intro a
  induction a with
  | nil =>
    intro b _ hba
    cases b with
    | nil => rfl
    | cons y ys => simp [keyLe] at hba
  | cons x xs ih =>
    intro b hab hba
    cases b with
    | nil => simp [keyLe] at hab
    | cons y ys =>
      simp only [keyLe, Bool.or_eq_true, Bool.and_eq_true, beq_iff_eq] at hab hba
      rcases hab with h₁ | ⟨rfl, h₁⟩
      · rcases hba with h₂ | ⟨h₂, _⟩
        · rw [strLt_asymm h₁] at h₂
          exact absurd h₂ (by simp)
        · rw [h₂, strLt_irrefl] at h₁
          exact absurd h₁ (by simp)
      · rcases hba with h₂ | ⟨_, h₂⟩
        · rw [strLt_irrefl] at h₂
          exact absurd h₂ (by simp)
        · exact congrArg (x :: ·) (ih ys h₁ h₂)

/-- Two permuted lists, both sorted under the key order, with
duplicate-free keys, are equal. -/
theorem pairwise_key_eq_of_perm {α : Type} (key : α → List String) {l₁ l₂ : List α}
    (hp : l₁.Perm l₂)
    (hs₁ : l₁.Pairwise (fun x y => keyLe (key x) (key y) = true))
    (hs₂ : l₂.Pairwise (fun x y => keyLe (key x) (key y) = true))
    (hnd : (l₁.map key).Nodup) : l₁ = l₂ := by
  set r : α → α → Prop := fun x y => keyLe (key x) (key y) = true ∧ key x ≠ key y with hr
  have hanti : IsAntisymm α r :=
    ⟨fun a b hab hba => absurd (keyLe_antisymm _ _ hab.1 hba.1) hab.2⟩
  have hnd₂ : (l₂.map key).Nodup := (hp.map key).nodup hnd
  have hsorted : ∀ l : List α, (l.map key).Nodup →
      l.Pairwise (fun x y => keyLe (key x) (key y) = true) → l.Pairwise r := by
    intro l hnd' hpw
    have hne : l.Pairwise (fun x y => key x ≠ key y) := List.pairwise_map.1 hnd'
    exact (hpw.and hne).imp (fun h => h)
  exact @List.eq_of_perm_of_sorted α r hanti _ _ hp
    (hsorted _ hnd hs₁) (hsorted _ hnd₂ hs₂)

/-- Sorting by an injective-by-key order is canonical: two permuted lists
with duplicate-free keys sort to the same list. -/
theorem sortLe_key_eq_of_perm {α : Type} (key : α → List String) {l₁ l₂ : List α}
    (hp : l₁.Perm l₂) (hnd : (l₁.map key).Nodup) :
    sortLe (fun x y => keyLe (key x) (key y)) l₁ =
    sortLe (fun x y => keyLe (key x) (key y)) l₂ := by
  set le : α → α → Bool := fun x y => keyLe (key x) (key y) with hle
  have htrans : ∀ x y z, le x y = true → le y z = true → le x z = true :=
    fun x y z h₁ h₂ => keyLe_trans (key x) (key y) (key z) h₁ h₂
  have htot : ∀ x y, le x y = true ∨ le y x = true :=
    fun x y => keyLe_total (key x) (key y)
  have hperm₁ : (sortLe le l₁).Perm l₁ := sortLe_perm le l₁
  have hperm₂ : (sortLe le l₂).Perm l₂ := sortLe_perm le l₂
  have hp' : (sortLe le l₁).Perm (sortLe le l₂) :=
    hperm₁.trans (hp.trans hperm₂.symm)
  have hnd₁ : ((sortLe le l₁).map key).Nodup :=
    (hperm₁.map key).symm.nodup hnd
  exact pairwise_key_eq_of_perm key hp'
    (sortLe_pairwise htrans htot l₁) (sortLe_pairwise htrans htot l₂) hnd₁

/-! ## Structural lemmas about the per-file pipeline -/

/-- The flattened key of an identity. -/
def idKey (i : Identity) : List String := [i.path, i.qualName, i.kindTag]

theorem idKey_injective : Function.Injective idKey := by
  intro a b h
  cases a
  cases b
  simp only [idKey, List.cons.injEq, and_true] at h
  simp [h.1, h.2.1, h.2.2]

theorem nodeKey_eq_idKey (n : EntityNode) : nodeKey n = idKey n.id := rfl

theorem buildNodeFrom_id {i : Identity}
    {contribs : List (RawAnnot × AnnotationRecord)} {n : EntityNode}
    (h : buildNodeFrom i contribs = some n) : n.id = i := by
  unfold buildNodeFrom at h
  split at h
  · exact absurd h (by simp)
  · rw [← Option.some_inj.1 h]

theorem buildNode_id {path : String} {valids : List (RawAnnot × AnnotationRecord)}
    {i : Identity} {n : EntityNode} (h : buildNode path valids i = some n) :
    n.id = i :=
  buildNodeFrom_id h

theorem filterMap_buildNode_ids_sublist (path : String)
    (valids : List (RawAnnot × AnnotationRecord)) (ids : List Identity) :
    ((ids.filterMap (buildNode path valids)).map (fun n => n.id)).Sublist ids := by
  induction ids with
  | nil => simp
  | cons i is ih =>
    cases h : buildNode path valids i with
    | none =>
      rw [List.filterMap_cons_none h]
      exact ih.cons i
    | some n =>
      rw [List.filterMap_cons_some h]
      simpa [buildNode_id h] using ih.cons₂ i

theorem fileNodes_ids_nodup (path : String) (lines : List String) :
    ((fileNodes path lines).map (fun n => n.id)).Nodup :=
  (filterMap_buildNode_ids_sublist path _ _).nodup (List.nodup_dedup _)

theorem fileNodes_key_nodup (path : String) (lines : List String) :
    ((fileNodes path lines).map nodeKey).Nodup := by
  have h : (fileNodes path lines).map nodeKey =
      ((fileNodes path lines).map (fun n => n.id)).map idKey := by
    rw [List.map_map]
    rfl
  rw [h]
  exact (fileNodes_ids_nodup path lines).map idKey_injective

theorem mem_fileIds_path {path : String} {lines : List String} {i : Identity}
    (h : i ∈ fileIds path lines) : i.path = path := by
  rcases List.mem_map.1 (List.mem_dedup.1 h) with ⟨rv, _, hrv⟩
  rw [← hrv]
  rfl

theorem mem_fileNodes_path {path : String} {lines : List String} {n : EntityNode}
    (h : n ∈ fileNodes path lines) : n.id.path = path := by
  rcases List.mem_filterMap.1 h with ⟨i, hi, hbn⟩
  rw [buildNode_id hbn]
  exact mem_fileIds_path hi

/-! ## Lemmas about `dedupeBy` -/

theorem mem_of_mem_dedupeBy {α κ : Type} (key : α → κ) [DecidableEq κ] :
    ∀ (seen : List κ) (l : List α) (x : α), x ∈ dedupeBy key seen l → x ∈ l := by
  intro seen l
  induction l generalizing seen with
  | nil => intro x h; simp [dedupeBy] at h
  | cons a as ih =>
    intro x h
    by_cases hk : key a ∈ seen
    · simp only [dedupeBy, hk, if_true] at h
      exact List.mem_cons_of_mem a (ih seen x h)
    · simp only [dedupeBy, hk, if_false, List.mem_cons] at h
      rcases h with rfl | h
      · exact List.mem_cons_self x as
      · exact List.mem_cons_of_mem a (ih _ x h)

theorem dedupeBy_key_nodup {α κ : Type} (key : α → κ) [DecidableEq κ] :
    ∀ (seen : List κ) (l : List α),
      ((dedupeBy key seen l).map key).Nodup ∧
      ∀ k ∈ (dedupeBy key seen l).map key, k ∉ seen := by
  intro seen l
  induction l generalizing seen with
  | nil => simp [dedupeBy]
  | cons a as ih =>
    by_cases hk : key a ∈ seen
    · simpa only [dedupeBy, hk, if_true] using ih seen
    · simp only [dedupeBy, hk, if_false, List.map_cons, List.nodup_cons]
      rcases ih (key a :: seen) with ⟨hnd, hout⟩
      refine ⟨⟨?_, hnd⟩, ?_⟩
      · intro hmem
        exact (hout _ hmem) (List.mem_cons_self _ _)
      · intro k hkmem
        rcases List.mem_cons.1 hkmem with rfl | hkmem
        · exact hk
        · intro hks
          exact (hout k hkmem) (List.mem_cons_of_mem _ hks)

theorem mem_dedupeBy_of_key_unique {α κ : Type} (key : α → κ) [DecidableEq κ] :
    ∀ (seen : List κ) (l : List α) (x : α), x ∈ l →
      (∀ y ∈ l, key y = key x → y = x) → key x ∉ seen →
      x ∈ dedupeBy key seen l := by
  intro seen l
  induction l generalizing seen with
  | nil => intro x h; simp at h
  | cons a as ih =>
    intro x hx huniq hseen
    rcases List.mem_cons.1 hx with rfl | hx
    · simp only [dedupeBy, hseen, if_false]
      exact List.mem_cons_self x _
    · by_cases hk : key a ∈ seen
      · simp only [dedupeBy, hk, if_true]
        exact ih seen x hx (fun y hy => huniq y (List.mem_cons_of_mem a hy)) hseen
      · simp only [dedupeBy, hk, if_false]
        by_cases hax : key a = key x
        · have : a = x := huniq a (List.mem_cons_self a as) hax
          rw [this]
          exact List.mem_cons_self x _
        · refine List.mem_cons_of_mem a (ih _ x hx
            (fun y hy => huniq y (List.mem_cons_of_mem a hy)) ?_)
          intro hmem
          rcases List.mem_cons.1 hmem with heq | hmem
          · exact hax heq.symm
          · exact hseen hmem

/-! ## Edge source paths -/

theorem mem_containsEdges {nodes : List EntityNode} {e : Edge}
    (h : e ∈ containsEdges nodes) :
    ∃ n ∈ nodes, ∃ nm kd p, n.symbol = .child nm kd p ∧
      e = ⟨⟨n.id.path, p.qualName, p.kindOf⟩, .contains, .entity n.id, none⟩ ∧
      nodes.any (fun m => decide (m.id = (⟨n.id.path, p.qualName, p.kindOf⟩ : Identity))) = true := by
  rcases List.mem_filterMap.1 h with ⟨n, hn, hsome⟩
  refine ⟨n, hn, ?_⟩
  cases hsym : n.symbol with
  | moduleSym => rw [hsym] at hsome; simp at hsome
  | child nm kd p =>
    rw [hsym] at hsome
    by_cases hany : nodes.any (fun m => decide (m.id = (⟨n.id.path, p.qualName, p.kindOf⟩ : Identity))) = true
    · simp only [hany, if_true, Option.some_inj] at hsome
      exact ⟨nm, kd, p, rfl, hsome.symm, hany⟩
    · simp only [Bool.not_eq_true] at hany
      simp [hany] at hsome

theorem mem_semanticEdges_src {n : EntityNode} {e : Edge}
    (h : e ∈ semanticEdges n) : e.src = n.id := by
  unfold semanticEdges at h
  rcases List.mem_append.1 h with h | h
  · cases hd : n.record.dependencies with
    | none => rw [hd] at h; simp at h
    | some d =>
      rw [hd] at h
      rcases List.mem_append.1 h with h | h
      · rcases List.mem_append.1 h with h | h
        · rcases List.mem_map.1 h with ⟨s, _, hs⟩; rw [← hs]
        · rcases List.mem_map.1 h with ⟨s, _, hs⟩; rw [← hs]
      · rcases List.mem_map.1 h with ⟨s, _, hs⟩; rw [← hs]
  · cases hl : n.record.links with
    | none => rw [hl] at h; simp at h
    | some ls =>
      rw [hl] at h
      dsimp only at h
      rcases List.mem_map.1 h with ⟨l, _, hl2⟩
      rw [← hl2]

theorem mem_fileEdges_src_path {path : String} {lines : List String} {e : Edge}
    (h : e ∈ fileEdges path lines) : e.src.path = path := by
  have h2 := mem_of_mem_dedupeBy edgeTriple [] _ e h
  rcases List.mem_append.1 h2 with h3 | h3
  · rcases mem_containsEdges h3 with ⟨n, hn, nm, kd, p, _, he, _⟩
    rw [he]
    exact mem_fileNodes_path hn
  · rcases List.mem_flatMap.1 h3 with ⟨n, hn, hsem⟩
    rw [mem_semanticEdges_src hsem]
    exact mem_fileNodes_path hn

theorem fileEdges_key_nodup (path : String) (lines : List String) :
    ((fileEdges path lines).map edgeTriple).Nodup :=
  (dedupeBy_key_nodup edgeTriple [] _).1

/-! ## Per-file results inside `processFile` -/

theorem processFile_nodes_path {f : FileInput} {n : EntityNode}
    (h : n ∈ (processFile f).nodes) : n.id.path = f.path := by
  unfold processFile at h
  split at h
  · simp at h
  · split at h
    · simp at h
    · exact mem_fileNodes_path h

theorem processFile_nodes_key_nodup (f : FileInput) :
    (((processFile f).nodes).map nodeKey).Nodup := by
  unfold processFile
  split
  · simp
  · split
    · simp
    · exact fileNodes_key_nodup _ _

theorem processFile_edges_src_path {f : FileInput} {e : Edge}
    (h : e ∈ (processFile f).edges) : e.src.path = f.path := by
  unfold processFile at h
  split at h
  · simp at h
  · split at h
    · simp at h
    · exact mem_fileEdges_src_path h

theorem processFile_edges_key_nodup (f : FileInput) :
    (((processFile f).edges).map edgeTriple).Nodup := by
  unfold processFile
  split
  · simp
  · split
    · simp
    · exact fileEdges_key_nodup _ _

/-! ## Scan-level canonicality -/

theorem allNodes_eq_flatMap (files : List FileInput) :
    allNodes files = files.flatMap (fun f => (processFile f).nodes) :=
  List.flatMap_map _ _ _

theorem allEdges_eq_flatMap (files : List FileInput) :
    allEdges files = files.flatMap (fun f => (processFile f).edges) :=
  List.flatMap_map _ _ _

theorem nodeKey_head {f : FileInput} {k : List String}
    (hk : k ∈ ((processFile f).nodes).map nodeKey) : k.head? = some f.path := by
  rcases List.mem_map.1 hk with ⟨n, hn, hnk⟩
  rw [← hnk]
  simp [nodeKey, processFile_nodes_path hn]

theorem edgeKey_head {f : FileInput} {k : List String}
    (hk : k ∈ ((processFile f).edges).map edgeTriple) : k.head? = some f.path := by
  rcases List.mem_map.1 hk with ⟨e, he, hek⟩
  rw [← hek]
  simp [edgeTriple, processFile_edges_src_path he]

theorem allNodes_key_nodup (files : List FileInput)
    (hnd : (files.map (fun f => f.path)).Nodup) :
    ((allNodes files).map nodeKey).Nodup := by
  rw [allNodes_eq_flatMap, List.map_flatMap]
  rw [List.nodup_flatMap]
  refine ⟨fun f _ => processFile_nodes_key_nodup f, ?_⟩
  have hpw : files.Pairwise (fun f g => f.path ≠ g.path) := List.pairwise_map.1 hnd
  refine hpw.imp ?_
  intro f g hneq
  intro k hk₁ hk₂
  have h₁ := nodeKey_head (f := f) hk₁
  have h₂ := nodeKey_head (f := g) hk₂
  rw [h₁] at h₂
  exact hneq (Option.some_inj.1 h₂)

theorem allEdges_key_nodup (files : List FileInput)
    (hnd : (files.map (fun f => f.path)).Nodup) :
    ((allEdges files).map edgeTriple).Nodup := by
  rw [allEdges_eq_flatMap, List.map_flatMap]
  rw [List.nodup_flatMap]
  refine ⟨fun f _ => processFile_edges_key_nodup f, ?_⟩
  have hpw : files.Pairwise (fun f g => f.path ≠ g.path) := List.pairwise_map.1 hnd
  refine hpw.imp ?_
  intro f g hneq
  intro k hk₁ hk₂
  have h₁ := edgeKey_head (f := f) hk₁
  have h₂ := edgeKey_head (f := g) hk₂
  rw [h₁] at h₂
  exact hneq (Option.some_inj.1 h₂)

theorem scanGraph_order_independent {files₁ files₂ : List FileInput}
    (hp : files₁.Perm files₂) (hnd : (files₁.map (fun f => f.path)).Nodup) :
    scanGraph files₁ = scanGraph files₂ := by
  have hpn : (allNodes files₁).Perm (allNodes files₂) := by
    rw [allNodes_eq_flatMap, allNodes_eq_flatMap]
    exact hp.flatMap_right _
  have hpe : (allEdges files₁).Perm (allEdges files₂) := by
    rw [allEdges_eq_flatMap, allEdges_eq_flatMap]
    exact hp.flatMap_right _
  unfold scanGraph
  rw [Graph.mk.injEq]
  exact ⟨sortLe_key_eq_of_perm nodeKey hpn (allNodes_key_nodup files₁ hnd),
         sortLe_key_eq_of_perm edgeTriple hpe (allEdges_key_nodup files₁ hnd)⟩

/-! ## Validator invariants -/

/-- The enum/required-field invariants of a normalized record. -/
def recordOk (r : AnnotationRecord) : Prop :=
  r.kind ∈ kindValues ∧ r.description ≠ "" ∧
  (∀ s, r.status = some s → s ∈ statusValues) ∧
  (∀ c, r.context = some c →
    (∀ s, c.funnel_stage = some s → s ∈ funnelStageValues) ∧
    (∀ s, c.revenue_impact = some s → s ∈ revenueImpactValues)) ∧
  (∀ c, r.compliance = some c →
    ∀ s, c.data_sensitivity = some s → s ∈ dataSensitivityValues)

theorem requireKind_ok {v : Value} {k : String} (h : requireKind v = .ok k) :
    k ∈ kindValues := by
  unfold requireKind at h
  split at h
  · exact absurd h (by simp)
  · split at h
    · exact absurd h (by simp)
    · split at h
      · rename_i hmem
        exact Except.ok.inj h ▸ hmem
      · exact absurd h (by simp)

theorem requireDescription_ok {v : Value} {d : String}
    (h : requireDescription v = .ok d) : d ≠ "" := by
  unfold requireDescription at h
  split at h
  · exact absurd h (by simp)
  · split at h
    · exact absurd h (by simp)
    · split at h
      · exact absurd h (by simp)
      · rename_i hne
        exact Except.ok.inj h ▸ hne

theorem optEnumIn_ok {v : Value} {k path : String} {allowed : List String}
    {s : String} (h : optEnumIn v k path allowed = .ok (some s)) :
    s ∈ allowed := by
  unfold optEnumIn at h
  split at h
  · exact absurd h (by simp)
  · split at h
    · exact absurd h (by simp)
    · split at h
      · rename_i hmem
        exact Option.some_inj.1 (Except.ok.inj h) ▸ hmem
      · exact absurd h (by simp)

theorem validateContext_ok {v : Value} {c : ContextInfo}
    (h : validateContext v = .ok (some c)) :
    (∀ s, c.funnel_stage = some s → s ∈ funnelStageValues) ∧
    (∀ s, c.revenue_impact = some s → s ∈ revenueImpactValues) := by
  unfold validateContext at h
  cases hl : lookupKey v "context" with
  | none => rw [hl] at h; exact absurd h (by simp)
  | some cv =>
    rw [hl] at h
    dsimp only at h
    cases hbg : optScalarIn cv "business_goal" "context.business_goal" with
    | error e => rw [hbg] at h; exact absurd h (by simp)
    | ok bg =>
      rw [hbg] at h
      dsimp only at h
      cases hfs : optEnumIn cv "funnel_stage" "context.funnel_stage" funnelStageValues with
      | error e => rw [hfs] at h; exact absurd h (by simp)
      | ok fs =>
        rw [hfs] at h
        dsimp only at h
        cases hri : optEnumIn cv "revenue_impact" "context.revenue_impact" revenueImpactValues with
        | error e => rw [hri] at h; exact absurd h (by simp)
        | ok ri =>
          rw [hri] at h
          obtain rfl : (⟨bg, fs, ri⟩ : ContextInfo) = c :=
            Option.some_inj.1 (Except.ok.inj h)
          constructor
          · intro s hs
            have hs' : fs = some s := hs
            rw [hs'] at hfs
            exact optEnumIn_ok hfs
          · intro s hs
            have hs' : ri = some s := hs
            rw [hs'] at hri
            exact optEnumIn_ok hri

theorem validateCompliance_ok {v : Value} {c : ComplianceInfo}
    (h : validateCompliance v = .ok (some c)) :
    ∀ s, c.data_sensitivity = some s → s ∈ dataSensitivityValues := by
  unfold validateCompliance at h
  cases hl : lookupKey v "compliance" with
  | none => rw [hl] at h; exact absurd h (by simp)
  | some cv =>
    rw [hl] at h
    dsimp only at h
    cases hrg : optListIn cv "regulations" "compliance.regulations" with
    | error e => rw [hrg] at h; exact absurd h (by simp)
    | ok rg =>
      rw [hrg] at h
      dsimp only at h
      cases hds : optEnumIn cv "data_sensitivity" "compliance.data_sensitivity" dataSensitivityValues with
      | error e => rw [hds] at h; exact absurd h (by simp)
      | ok ds =>
        rw [hds] at h
        dsimp only at h
        cases har : optListIn cv "audit_requirements" "compliance.audit_requirements" with
        | error e => rw [har] at h; exact absurd h (by simp)
        | ok ar =>
          rw [har] at h
          obtain rfl : (⟨rg.getD [], ds, ar.getD []⟩ : ComplianceInfo) = c :=
            Option.some_inj.1 (Except.ok.inj h)
          intro s hs
          have hs' : ds = some s := hs
          rw [hs'] at hds
          exact optEnumIn_ok hds

theorem validateRecord_ok {v : Value} {r : AnnotationRecord}
    (h : validateRecord v = .ok r) : recordOk r := by
  unfold validateRecord at h
  cases hkd : requireKind v with
  | error e => rw [hkd] at h; exact absurd h (by simp)
  | ok kd =>
    rw [hkd] at h
    dsimp only at h
    cases hds : requireDescription v with
    | error e => rw [hds] at h; exact absurd h (by simp)
    | ok ds =>
      rw [hds] at h
      dsimp only at h
      cases how : optScalarIn v "owner" "owner" with
      | error e => rw [how] at h; exact absurd h (by simp)
      | ok ow =>
        rw [how] at h
        dsimp only at h
        cases hst : optEnumIn v "status" "status" statusValues with
        | error e => rw [hst] at h; exact absurd h (by simp)
        | ok st =>
          rw [hst] at h
          dsimp only at h
          cases htg : optListIn v "tags" "tags" with
          | error e => rw [htg] at h; exact absurd h (by simp)
          | ok tg =>
            rw [htg] at h
            dsimp only at h
            cases hlk : optLinksIn v "links" "links" with
            | error e => rw [hlk] at h; exact absurd h (by simp)
            | ok lk =>
              rw [hlk] at h
              dsimp only at h
              cases hcx : validateContext v with
              | error e => rw [hcx] at h; exact absurd h (by simp)
              | ok cx =>
                rw [hcx] at h
                dsimp only at h
                cases hdp : validateDependencies v with
                | error e => rw [hdp] at h; exact absurd h (by simp)
                | ok dp =>
                  rw [hdp] at h
                  dsimp only at h
                  cases hcp : validateCompliance v with
                  | error e => rw [hcp] at h; exact absurd h (by simp)
                  | ok cp =>
                    rw [hcp] at h
                    dsimp only at h
                    cases hop : validateOperational v with
                    | error e => rw [hop] at h; exact absurd h (by simp)
                    | ok op =>
                      rw [hop] at h
                      obtain rfl :
                          ({ kind := kd, description := ds, owner := ow,
                             status := st, tags := tg, links := lk,
                             context := cx, dependencies := dp,
                             compliance := cp, operational := op,
                             extensions := extensionsOf v } : AnnotationRecord) = r :=
                        Except.ok.inj h
                      refine ⟨requireKind_ok hkd, requireDescription_ok hds, ?_, ?_, ?_⟩
                      · intro s hs
                        have hs' : st = some s := hs
                        rw [hs'] at hst
                        exact optEnumIn_ok hst
                      · intro c hc
                        have hc' : cx = some c := hc
                        rw [hc'] at hcx
                        exact validateContext_ok hcx
                      · intro c hc
                        have hc' : cp = some c := hc
                        rw [hc'] at hcp
                        exact validateCompliance_ok hcp

theorem mergeRecords_ok {lo hi : AnnotationRecord}
    (hlo : recordOk lo) (hhi : recordOk hi) : recordOk (mergeRecords lo hi) := by
  rcases hlo with ⟨_, _, hs₁, hc₁, hp₁⟩
  rcases hhi with ⟨hk₂, hd₂, hs₂, hc₂, hp₂⟩
  refine ⟨hk₂, hd₂, ?_, ?_, ?_⟩
  · intro s hs
    have hs' : orElseO hi.status lo.status = some s := hs
    unfold orElseO at hs'
    split at hs'
    · rename_i x heq
      exact hs₂ s (heq.trans hs')
    · exact hs₁ s hs'
  · intro c hc
    have hc' : orElseO hi.context lo.context = some c := hc
    unfold orElseO at hc'
    split at hc'
    · rename_i x heq
      exact hc₂ c (heq.trans hc')
    · exact hc₁ c hc'
  · intro c hc
    have hc' : orElseO hi.compliance lo.compliance = some c := hc
    unfold orElseO at hc'
    split at hc'
    · rename_i x heq
      exact hp₂ c (heq.trans hc')
    · exact hp₁ c hc'

/-! ## The record invariant through the pipeline -/

theorem parseAndValidate_ok {path : String} {r : RawAnnot} {a : AnnotationRecord}
    (h : parseAndValidate path r = .ok a) : recordOk a := by
  unfold parseAndValidate at h
  cases hp : parseBody r.body with
  | error e => rw [hp] at h; exact absurd h (by simp)
  | ok v =>
    rw [hp] at h
    dsimp only at h
    cases hv : validateRecord v with
    | error e => rw [hv] at h; exact absurd h (by simp)
    | ok recd =>
      rw [hv] at h
      exact Except.ok.inj h ▸ validateRecord_ok hv

theorem fileValids_ok {path : String} {lines : List String}
    {rv : RawAnnot × AnnotationRecord} (h : rv ∈ fileValids path lines) :
    recordOk rv.2 := by
  rcases List.mem_filterMap.1 h with ⟨re, _, hsome⟩
  rcases List.mem_map.1 ‹re ∈ fileParsed path lines›  with ⟨r, _, hre⟩
  cases hx : re.2 with
  | error d => rw [hx] at hsome; exact absurd hsome (by simp)
  | ok a =>
    rw [hx] at hsome
    have : (re.1, a) = rv := Option.some_inj.1 hsome
    have hval : parseAndValidate path re.1 = .ok a := by
      have h2 : re.2 = parseAndValidate path re.1 := by
        rw [← hre]
      rw [← h2, hx]
    rw [← this]
    exact parseAndValidate_ok hval

theorem foldl_mergeRecords_ok (cs : List (RawAnnot × AnnotationRecord)) :
    ∀ acc : AnnotationRecord, recordOk acc → (∀ rv ∈ cs, recordOk rv.2) →
    recordOk (cs.foldl (fun acc rv => mergeRecords acc rv.2) acc) := by
  induction cs with
  | nil => intro acc h _; exact h
  | cons c cs ih =>
    intro acc hacc hall
    exact ih _ (mergeRecords_ok hacc (hall c (List.mem_cons_self c cs)))
      (fun rv hrv => hall rv (List.mem_cons_of_mem _ hrv))

theorem buildNodeFrom_record_ok {i : Identity}
    {contribs : List (RawAnnot × AnnotationRecord)} {n : EntityNode}
    (hok : ∀ rv ∈ contribs, recordOk rv.2)
    (h : buildNodeFrom i contribs = some n) : recordOk n.record := by
  unfold buildNodeFrom at h
  cases hs : sortLe contribLe contribs with
  | nil => rw [hs] at h; exact absurd h (by simp)
  | cons c cs =>
    rw [hs] at h
    have hmem : ∀ rv ∈ c :: cs, recordOk rv.2 := by
      intro rv hrv
      exact hok rv (((sortLe_perm contribLe contribs).mem_iff).1 (hs ▸ hrv))
    obtain rfl : _ = n := Option.some_inj.1 h
    exact foldl_mergeRecords_ok cs c.2 (hmem c (List.mem_cons_self c cs))
      (fun rv hrv => hmem rv (List.mem_cons_of_mem _ hrv))

theorem fileNodes_record_ok {path : String} {lines : List String} {n : EntityNode}
    (h : n ∈ fileNodes path lines) : recordOk n.record := by
  rcases List.mem_filterMap.1 h with ⟨i, _, hbn⟩
  exact buildNodeFrom_record_ok
    (fun rv hrv => fileValids_ok (List.mem_of_mem_filter hrv)) hbn

theorem processFile_nodes_record_ok {f : FileInput} {n : EntityNode}
    (h : n ∈ (processFile f).nodes) : recordOk n.record := by
  unfold processFile at h
  split at h
  · simp at h
  · split at h
    · simp at h
    · exact fileNodes_record_ok h

theorem scan_nodes_record_ok {files : List FileInput} {n : EntityNode}
    (h : n ∈ (scan files).1.nodes) : recordOk n.record := by
  have h2 : n ∈ allNodes files :=
    ((sortLe_perm nodeLe (allNodes files)).mem_iff).1 h
  rw [allNodes_eq_flatMap] at h2
  rcases List.mem_flatMap.1 h2 with ⟨f, _, hn⟩
  exact processFile_nodes_record_ok hn

/-! ## Files with no sentinel-marked comments -/

theorem extractGo_no_sentinel {sym : EnclosingSymbol} {ls : List (Nat × String)}
    (h : ∀ x ∈ ls, sentinelOf x.2 = none) : extractGo sym ls none = [] := by
  induction ls with
  | nil => rfl
  | cons x xs ih =>
    have hstep : extractStep sym x.1 x.2 none = ([], none) := by
      unfold extractStep
      rw [h x (List.mem_cons_self x xs)]
    calc extractGo sym (x :: xs) none
        = (extractStep sym x.1 x.2 none).1 ++
          extractGo sym xs (extractStep sym x.1 x.2 none).2 := rfl
      _ = [] ++ extractGo sym xs none := by rw [hstep]
      _ = [] := by
          rw [List.nil_append]
          exact ih (fun y hy => h y (List.mem_cons_of_mem x hy))

theorem extractSpan_no_sentinel {sp : TextSpan}
    (h : ∀ x ∈ sp.content, sentinelOf x.2 = none) : extractSpan sp = [] :=
  extractGo_no_sentinel h

theorem fileRaws_no_sentinel {path : String} {lines : List String}
    (h : ∀ sp ∈ spansOf path lines, ∀ x ∈ sp.content, sentinelOf x.2 = none) :
    fileRaws path lines = [] :=
  List.flatMap_eq_nil_iff.2 (fun sp hsp => extractSpan_no_sentinel (h sp hsp))

theorem processFile_no_sentinel {f : FileInput} {lines : List String}
    (hc : f.content = some lines)
    (h : ∀ sp ∈ spansOf f.path lines, ∀ x ∈ sp.content, sentinelOf x.2 = none) :
    processFile f = ⟨[], [], []⟩ := by
  have hraws : fileRaws f.path lines = [] := fileRaws_no_sentinel h
  have hparsed : fileParsed f.path lines = [] := by
    unfold fileParsed
    rw [hraws]
    rfl
  have hvalids : fileValids f.path lines = [] := by
    unfold fileValids
    rw [hparsed]
    rfl
  have hdiags : fileDiags f.path lines = [] := by
    unfold fileDiags
    rw [hparsed]
    rfl
  have hnodes : fileNodes f.path lines = [] := by
    unfold fileNodes fileIds
    rw [hvalids]
    rfl
  have hedges : fileEdges f.path lines = [] := by
    unfold fileEdges
    rw [hnodes]
    rfl
  unfold processFile
  rw [hc]
  dsimp only
  rw [hraws]
  dsimp only [firstConflict]
  rw [hdiags, hnodes, hedges]
  rfl

/-! ## Error isolation between files and diagnostics aggregation -/

theorem pairwise_path_ne {files : List FileInput}
    (hnd : (files.map (fun f => f.path)).Nodup) :
    files.Pairwise (fun f g => f.path ≠ g.path) :=
  List.pairwise_map.1 hnd

theorem scan_nodes_filter_out (fs₁ fs₂ : List FileInput) (f : FileInput)
    (hnd : (((fs₁ ++ f :: fs₂)).map (fun g => g.path)).Nodup) :
    ((scan (fs₁ ++ f :: fs₂)).1.nodes.filter
      (fun n => decide (n.id.path ≠ f.path))) = (scan (fs₁ ++ fs₂)).1.nodes := by
  set p : EntityNode → Bool := fun n => decide (n.id.path ≠ f.path) with hpdef
  have hpw := pairwise_path_ne hnd
  rw [List.pairwise_append] at hpw
  rcases hpw with ⟨hpw₁, hpw₂, hcross⟩
  have hf₁ : ∀ g ∈ fs₁, g.path ≠ f.path :=
    fun g hg => hcross g hg f (List.mem_cons_self f fs₂)
  have hf₂ : ∀ g ∈ fs₂, g.path ≠ f.path := by
    intro g hg
    have := (List.pairwise_cons.1 hpw₂).1 g hg
    exact fun heq => this heq.symm
  have hfilter : (allNodes (fs₁ ++ f :: fs₂)).filter p = allNodes (fs₁ ++ fs₂) := by
    rw [allNodes_eq_flatMap, allNodes_eq_flatMap]
    rw [List.flatMap_append, List.flatMap_cons, List.flatMap_append]
    rw [List.filter_append, List.filter_append]
    have h₁ : (fs₁.flatMap (fun g => (processFile g).nodes)).filter p =
        fs₁.flatMap (fun g => (processFile g).nodes) := by
      rw [List.filter_eq_self]
      intro n hn
      rcases List.mem_flatMap.1 hn with ⟨g, hg, hng⟩
      simp only [hpdef, decide_eq_true_eq]
      rw [processFile_nodes_path hng]
      exact hf₁ g hg
    have h₂ : ((processFile f).nodes).filter p = [] := by
      rw [List.filter_eq_nil_iff]
      intro n hn
      simp only [hpdef, decide_eq_true_eq, not_not]
      exact processFile_nodes_path hn
    have h₃ : (fs₂.flatMap (fun g => (processFile g).nodes)).filter p =
        fs₂.flatMap (fun g => (processFile g).nodes) := by
      rw [List.filter_eq_self]
      intro n hn
      rcases List.mem_flatMap.1 hn with ⟨g, hg, hng⟩
      simp only [hpdef, decide_eq_true_eq]
      rw [processFile_nodes_path hng]
      exact hf₂ g hg
    rw [h₁, h₂, h₃, List.nil_append]
  have htrans : ∀ x y z : EntityNode,
      nodeLe x y = true → nodeLe y z = true → nodeLe x z = true :=
    fun x y z h₁ h₂ => keyLe_trans (nodeKey x) (nodeKey y) (nodeKey z) h₁ h₂
  have htot : ∀ x y : EntityNode, nodeLe x y = true ∨ nodeLe y x = true :=
    fun x y => keyLe_total (nodeKey x) (nodeKey y)
  have hs₁ : ((sortLe nodeLe (allNodes (fs₁ ++ f :: fs₂))).filter p).Pairwise
      (fun x y => keyLe (nodeKey x) (nodeKey y) = true) :=
    (sortLe_pairwise htrans htot _).filter p
  have hs₂ : (sortLe nodeLe (allNodes (fs₁ ++ fs₂))).Pairwise
      (fun x y => keyLe (nodeKey x) (nodeKey y) = true) :=
    sortLe_pairwise htrans htot _
  have hperm : ((sortLe nodeLe (allNodes (fs₁ ++ f :: fs₂))).filter p).Perm
      (sortLe nodeLe (allNodes (fs₁ ++ fs₂))) := by
    refine (((sortLe_perm nodeLe _).filter p).trans ?_).trans
      (sortLe_perm nodeLe _).symm
    rw [hfilter]
  have hnd' : ((((sortLe nodeLe (allNodes (fs₁ ++ f :: fs₂))).filter p)).map nodeKey).Nodup := by
    have hsub : (((sortLe nodeLe (allNodes (fs₁ ++ f :: fs₂))).filter p)).Sublist
        (sortLe nodeLe (allNodes (fs₁ ++ f :: fs₂))) := List.filter_sublist _
    have hnd₀ : ((sortLe nodeLe (allNodes (fs₁ ++ f :: fs₂))).map nodeKey).Nodup :=
      ((sortLe_perm nodeLe _).map nodeKey).symm.nodup (allNodes_key_nodup _ hnd)
    exact (hsub.map nodeKey).nodup hnd₀
  exact pairwise_key_eq_of_perm nodeKey hperm hs₁ hs₂ hnd'

theorem processFile_diags_mem_scan {files : List FileInput} {f : FileInput}
    {d : Diagnostic} (hf : f ∈ files) (hd : d ∈ (processFile f).diags) :
    d ∈ (scan files).2 :=
  List.mem_flatMap.2 ⟨processFile f, List.mem_map_of_mem processFile hf, hd⟩

theorem scan_diags_nil_iff (files : List FileInput) :
    (scan files).2 = [] ↔ ∀ f ∈ files, (processFile f).diags = [] := by
  show scanDiags files = [] ↔ _
  unfold scanDiags
  rw [List.flatMap_eq_nil_iff]
  constructor
  · intro h f hf
    exact h (processFile f) (List.mem_map_of_mem processFile hf)
  · intro h r hr
    rcases List.mem_map.1 hr with ⟨f, hf, rfl⟩
    exact h f hf

/-! ## Diff lemmas -/

theorem find?_id_of_nodup {l : List EntityNode}
    (hnd : (l.map (fun n => n.id)).Nodup) {n : EntityNode} {i : Identity}
    (hn : n ∈ l) (hi : n.id = i) :
    l.find? (fun m => decide (m.id = i)) = some n := by
  induction l with
  | nil => simp at hn
  | cons a as ih =>
    rw [List.map_cons, List.nodup_cons] at hnd
    rcases List.mem_cons.1 hn with rfl | hn'
    · have hpos : decide (n.id = i) = true := by simp [hi]
      exact @List.find?_cons_of_pos _ (fun m => decide (m.id = i)) n as hpos
    · have hne : a.id ≠ i := by
        intro heq
        refine hnd.1 ?_
        rw [heq, ← hi]
        exact List.mem_map_of_mem (fun n => n.id) hn'
      have hneg : ¬ decide (a.id = i) = true := by simp [hne]
      rw [@List.find?_cons_of_neg _ (fun m => decide (m.id = i)) a as hneg]
      exact ih hnd.2 hn'

theorem ite_singleton_nil_iff {c : Prop} [Decidable c] {s : String} :
    (if c then [s] else []) = [] ↔ ¬c := by
  by_cases h : c <;> simp [h]

theorem changedFields_self (r : AnnotationRecord) : changedFields r r = [] := by
  simp [changedFields]

theorem changedFields_nil_iff (a b : AnnotationRecord) :
    changedFields a b = [] ↔ a = b := by
  cases a
  cases b
  simp only [changedFields, List.append_eq_nil, ite_singleton_nil_iff, not_not,
    AnnotationRecord.mk.injEq]
  tauto

theorem scan_nodes_ids_nodup (files : List FileInput)
    (hnd : (files.map (fun f => f.path)).Nodup) :
    ((scan files).1.nodes.map (fun n => n.id)).Nodup := by
  have h1 : ((allNodes files).map nodeKey).Nodup := allNodes_key_nodup files hnd
  have h2 : (allNodes files).map nodeKey =
      ((allNodes files).map (fun n => n.id)).map idKey := by
    rw [List.map_map]
    rfl
  rw [h2] at h1
  have h3 : ((allNodes files).map (fun n => n.id)).Nodup := List.Nodup.of_map idKey h1
  exact ((sortLe_perm nodeLe (allNodes files)).map (fun n => n.id)).symm.nodup h3

theorem diff_self_empty {g : Graph} (hnd : (g.nodes.map (fun n => n.id)).Nodup) :
    diff g g = ⟨[], [], []⟩ := by
  unfold diff
  have hadd : g.nodes.filter
      (fun n => !(g.nodes.any (fun m => decide (m.id = n.id)))) = [] := by
    rw [List.filter_eq_nil_iff]
    intro n hn
    simp only [Bool.not_eq_true', Bool.not_eq_false]
    exact List.any_eq_true.2 ⟨n, hn, by simp⟩
  have hchanged : g.nodes.filterMap (fun o =>
      match g.nodes.find? (fun m => decide (m.id = o.id)) with
      | some n =>
        let cf := changedFields o.record n.record
        if cf.isEmpty then none else some (o, n, cf)
      | none => none) = [] := by
    rw [List.filterMap_eq_nil_iff]
    intro o ho
    rw [find?_id_of_nodup hnd ho rfl]
    simp [changedFields_self]
  rw [hadd, hchanged]

theorem diff_changed_iff {g₁ g₂ : Graph}
    (hnd₂ : (g₂.nodes.map (fun n => n.id)).Nodup)
    (o n : EntityNode) (flds : List String) :
    (o, n, flds) ∈ (diff g₁ g₂).changed ↔
      o ∈ g₁.nodes ∧ n ∈ g₂.nodes ∧ n.id = o.id ∧
      flds = changedFields o.record n.record ∧ flds ≠ [] := by
  constructor
  · intro h
    rcases List.mem_filterMap.1 h with ⟨o', ho', hsome⟩
    cases hf : g₂.nodes.find? (fun m => decide (m.id = o'.id)) with
    | none => rw [hf] at hsome; simp at hsome
    | some n' =>
      rw [hf] at hsome
      dsimp only at hsome
      by_cases hcf : (changedFields o'.record n'.record).isEmpty
      · rw [if_pos hcf] at hsome
        simp at hsome
      · rw [if_neg hcf] at hsome
        have h3 := Option.some_inj.1 hsome
        obtain ⟨rfl, rfl, rfl⟩ : o' = o ∧ n' = n ∧
            changedFields o'.record n'.record = flds := by
          have h4 := Prod.mk.injEq _ _ _ _ ▸ h3
          refine ⟨congrArg Prod.fst h3, ?_, ?_⟩
          · exact congrArg (fun x => x.2.1) h3
          · exact congrArg (fun x => x.2.2) h3
        refine ⟨ho', List.mem_of_find?_eq_some hf, ?_, rfl, ?_⟩
        · have := List.find?_some hf
          exact of_decide_eq_true this
        · intro hnil
          rw [hnil] at hcf
          exact hcf rfl
  · rintro ⟨ho, hn, hid, rfl, hne⟩
    refine List.mem_filterMap.2 ⟨o, ho, ?_⟩
    rw [find?_id_of_nodup hnd₂ hn hid]
    dsimp only
    rw [if_neg ?_]
    intro hcf
    exact hne (List.isEmpty_iff.1 hcf ▸ rfl)

/-! ## Structural-edge characterization -/

theorem EdgeKind.str_inj {a b : EdgeKind} (h : a.str = b.str) : a = b := by
  cases a <;> cases b <;> first | rfl | (exact absurd h (by simp [EdgeKind.str]))

theorem mem_semanticEdges_kind {n : EntityNode} {e : Edge}
    (h : e ∈ semanticEdges n) : e.kind ≠ .contains := by
  unfold semanticEdges at h
  rcases List.mem_append.1 h with h | h
  · cases hd : n.record.dependencies with
    | none => rw [hd] at h; simp at h
    | some d =>
      rw [hd] at h
      rcases List.mem_append.1 h with h | h
      · rcases List.mem_append.1 h with h | h
        · rcases List.mem_map.1 h with ⟨s, _, hs⟩; rw [← hs]; simp
        · rcases List.mem_map.1 h with ⟨s, _, hs⟩; rw [← hs]; simp
      · rcases List.mem_map.1 h with ⟨s, _, hs⟩; rw [← hs]; simp
  · cases hl : n.record.links with
    | none => rw [hl] at h; simp at h
    | some ls =>
      rw [hl] at h
      rcases List.mem_map.1 h with ⟨l, _, hl2⟩
      rw [← hl2]
      simp

theorem edgeTriple_cons (e : Edge) :
    edgeTriple e = e.src.path :: e.src.qualName :: e.src.kindTag :: e.kind.str ::
      (match e.target with
       | .entity i => ["entity", i.path, i.qualName, i.kindTag]
       | .externalRef s => ["external", s]) := rfl

theorem containsEdge_eq_of_triple {nodes : List EntityNode} {e₁ e₂ : Edge}
    (h₁ : e₁ ∈ containsEdges nodes) (h₂ : e₂ ∈ containsEdges nodes)
    (ht : edgeTriple e₁ = edgeTriple e₂) : e₁ = e₂ := by
  rcases mem_containsEdges h₁ with ⟨n₁, _, nm₁, kd₁, p₁, _, he₁, _⟩
  rcases mem_containsEdges h₂ with ⟨n₂, _, nm₂, kd₂, p₂, _, he₂, _⟩
  rw [he₁, he₂]
  rw [he₁, he₂, edgeTriple_cons, edgeTriple_cons] at ht
  simp only [List.cons.injEq] at ht
  have hid : n₁.id = n₂.id := by
    cases hn₁ : n₁.id
    cases hn₂ : n₂.id
    rw [hn₁, hn₂] at ht
    simp only [Identity.mk.injEq]
    simp only at ht
    exact ⟨ht.2.2.2.2.2.1, ht.2.2.2.2.2.2.1, ht.2.2.2.2.2.2.2.1⟩
  rw [Edge.mk.injEq]
  refine ⟨?_, rfl, by rw [hid], rfl⟩
  rw [Identity.mk.injEq]
  exact ⟨by rw [hid], ht.2.1, ht.2.2.1⟩

/-- The three possible outcomes of processing one file. -/
theorem processFile_branches (f : FileInput) :
    (processFile f = ⟨[], [], [.ioError f.path]⟩) ∨
    (∃ lines s, f.content = some lines ∧
      processFile f = ⟨[], [], fileDiags f.path lines ++
        [.identityConflictError f.path s]⟩) ∨
    (∃ lines, f.content = some lines ∧
      processFile f = ⟨fileNodes f.path lines, fileEdges f.path lines,
        fileDiags f.path lines⟩) := by
  unfold processFile
  cases hc : f.content with
  | none => exact Or.inl rfl
  | some lines =>
    dsimp only
    cases hk : firstConflict f.path (((fileRaws f.path lines).map (fun r => r.symbol)).dedup) with
    | none => exact Or.inr (Or.inr ⟨lines, rfl, rfl⟩)
    | some s => exact Or.inr (Or.inl ⟨lines, s.qualName, rfl, rfl⟩)

theorem mem_scan_nodes_iff {files : List FileInput} {n : EntityNode} :
    n ∈ (scan files).1.nodes ↔ ∃ f ∈ files, n ∈ (processFile f).nodes := by
  constructor
  · intro h
    have h2 : n ∈ allNodes files :=
      ((sortLe_perm nodeLe (allNodes files)).mem_iff).1 h
    rw [allNodes_eq_flatMap] at h2
    exact List.mem_flatMap.1 h2
  · intro ⟨f, hf, hn⟩
    refine ((sortLe_perm nodeLe (allNodes files)).mem_iff).2 ?_
    rw [allNodes_eq_flatMap]
    exact List.mem_flatMap.2 ⟨f, hf, hn⟩

theorem mem_scan_edges_iff {files : List FileInput} {e : Edge} :
    e ∈ (scan files).1.edges ↔ ∃ f ∈ files, e ∈ (processFile f).edges := by
  constructor
  · intro h
    have h2 : e ∈ allEdges files :=
      ((sortLe_perm edgeLe (allEdges files)).mem_iff).1 h
    rw [allEdges_eq_flatMap] at h2
    exact List.mem_flatMap.1 h2
  · intro ⟨f, hf, he⟩
    refine ((sortLe_perm edgeLe (allEdges files)).mem_iff).2 ?_
    rw [allEdges_eq_flatMap]
    exact List.mem_flatMap.2 ⟨f, hf, he⟩

/-- The `contains` edges of a scan are exactly the parent→child links of
nodes whose enclosing symbol has a resolved parent node. -/
theorem scan_contains_edge_iff (files : List FileInput)
    (hnd : (files.map (fun f => f.path)).Nodup) (e : Edge) :
    (e ∈ (scan files).1.edges ∧ e.kind = .contains) ↔
    (∃ n ∈ (scan files).1.nodes, ∃ nm kd p, n.symbol = .child nm kd p ∧
      (∃ m ∈ (scan files).1.nodes, m.id = ⟨n.id.path, p.qualName, p.kindOf⟩) ∧
      e = ⟨⟨n.id.path, p.qualName, p.kindOf⟩, .contains, .entity n.id, none⟩) := by
  constructor
  · rintro ⟨hmem, hkind⟩
    rcases mem_scan_edges_iff.1 hmem with ⟨f, hf, he⟩
    rcases processFile_branches f with hb | ⟨lines, s, hc, hb⟩ | ⟨lines, hc, hb⟩
    · rw [hb] at he; simp at he
    · rw [hb] at he; simp at he
    · rw [hb] at he
      dsimp only at he
      have he2 := mem_of_mem_dedupeBy edgeTriple [] _ e he
      rcases List.mem_append.1 he2 with he3 | he3
      · rcases mem_containsEdges he3 with ⟨n, hn, nm, kd, p, hsym, heq, hany⟩
        refine ⟨n, ?_, nm, kd, p, hsym, ?_, heq⟩
        · exact mem_scan_nodes_iff.2 ⟨f, hf, by rw [hb]; exact hn⟩
        · rcases List.any_eq_true.1 hany with ⟨m, hm, hmid⟩
          exact ⟨m, mem_scan_nodes_iff.2 ⟨f, hf, by rw [hb]; exact hm⟩,
            of_decide_eq_true hmid⟩
      · rcases List.mem_flatMap.1 he3 with ⟨n, _, hsem⟩
        exact absurd hkind (mem_semanticEdges_kind hsem)
  · rintro ⟨n, hn, nm, kd, p, hsym, ⟨m, hm, hmid⟩, rfl⟩
    refine ⟨?_, rfl⟩
    rcases mem_scan_nodes_iff.1 hn with ⟨f, hf, hnf⟩
    rcases processFile_branches f with hb | ⟨lines, s, hc, hb⟩ | ⟨lines, hc, hb⟩
    · rw [hb] at hnf; simp at hnf
    · rw [hb] at hnf; simp at hnf
    · rw [hb] at hnf
      dsimp only at hnf
      rcases mem_scan_nodes_iff.1 hm with ⟨f', hf', hmf⟩
      rcases processFile_branches f' with hb' | ⟨lines', s', hc', hb'⟩ | ⟨lines', hc', hb'⟩
      · rw [hb'] at hmf; simp at hmf
      · rw [hb'] at hmf; simp at hmf
      · rw [hb'] at hmf
        dsimp only at hmf
        have hfeq : f' = f := by
          have hp1 : m.id.path = f'.path := mem_fileNodes_path hmf
          have hp2 : n.id.path = f.path := mem_fileNodes_path hnf
          have hp3 : m.id.path = n.id.path := by rw [hmid]
          exact List.inj_on_of_nodup_map hnd hf' hf (by rw [← hp1, hp3, hp2])
        rw [hfeq] at hmf hc'
        have hleq : lines' = lines := Option.some_inj.1 (hc'.symm.trans hc)
        rw [hleq] at hmf
        have hcont : (⟨⟨n.id.path, p.qualName, p.kindOf⟩, .contains, .entity n.id,
            none⟩ : Edge) ∈ containsEdges (fileNodes f.path lines) := by
          refine List.mem_filterMap.2 ⟨n, hnf, ?_⟩
          rw [hsym]
          dsimp only
          rw [if_pos]
          exact List.any_eq_true.2 ⟨m, hmf, decide_eq_true hmid⟩
        have hedge : (⟨⟨n.id.path, p.qualName, p.kindOf⟩, .contains, .entity n.id,
            none⟩ : Edge) ∈ fileEdges f.path lines := by
          unfold fileEdges
          refine mem_dedupeBy_of_key_unique edgeTriple [] _ _
            (List.mem_append.2 (Or.inl hcont)) ?_ (by simp)
          intro y hy ht
          rcases List.mem_append.1 hy with hy | hy
          · exact containsEdge_eq_of_triple hy hcont ht
          · rcases List.mem_flatMap.1 hy with ⟨n', _, hsem⟩
            have hk : y.kind.str = EdgeKind.contains.str := by
              have h1 := congrArg (fun l => l.get? 3) ht
              rw [edgeTriple_cons, edgeTriple_cons] at h1
              simp only [List.get?] at h1
              exact Option.some_inj.1 h1
            exact absurd (EdgeKind.str_inj hk) (mem_semanticEdges_kind hsem)
        exact mem_scan_edges_iff.2 ⟨f, hf, by rw [hb]; exact hedge⟩

/-! ## Two-variant merge behaviour -/

theorem sortLe_pair_lt {lo hi : RawAnnot × AnnotationRecord}
    (h : variantRank lo.1.variant < variantRank hi.1.variant) :
    sortLe contribLe [lo, hi] = [lo, hi] ∧ sortLe contribLe [hi, lo] = [lo, hi] := by
  constructor
  · show insertLe contribLe lo [hi] = [lo, hi]
    have hpos : contribLe lo hi = true := by
      unfold contribLe
      exact decide_eq_true (le_of_lt h)
    unfold insertLe
    rw [if_pos hpos]
  · show insertLe contribLe hi [lo] = [lo, hi]
    have hneg : ¬ contribLe hi lo = true := by
      unfold contribLe
      simp only [decide_eq_true_eq]
      omega
    unfold insertLe
    rw [if_neg hneg]
    rfl

theorem buildNodeFrom_two {i : Identity} {lo hi : RawAnnot × AnnotationRecord}
    (h : variantRank lo.1.variant < variantRank hi.1.variant)
    (contribs : List (RawAnnot × AnnotationRecord))
    (horder : contribs = [lo, hi] ∨ contribs = [hi, lo]) :
    buildNodeFrom i contribs = some
      { id := i
        symbol := lo.1.symbol
        record := mergeRecords lo.2 hi.2
        variants := [lo.1.variant, hi.1.variant]
        provenance := [(lo.1.variant, lo.1.line), (hi.1.variant, hi.1.line)] } := by
  have hs : sortLe contribLe contribs = [lo, hi] := by
    rcases horder with rfl | rfl
    · exact (sortLe_pair_lt h).1
    · exact (sortLe_pair_lt h).2
  unfold buildNodeFrom
  rw [hs]
  exact rfl

/-! ## Concrete scan inputs for the claims -/

/-- The sample fixture as a scan input. -/
def sampleFile : FileInput :=
  ⟨"packages/cli/src/__tests__/fixtures/sample.py", some samplePy⟩

/-- The sentinel-free mixed-project entry point as a scan input. -/
def mixedMainFile : FileInput :=
  ⟨"packages/core/src/suggest/__tests__/fixtures/mixed-project/main.py", some mixedMainPy⟩

/-- A synthetic file carrying a legacy and a current sentinel variant on
one symbol, the legacy one with an out-of-enum `status`. -/
def twoVariantPy : List String :=
  ["def target_fn():",
   "    \"\"\"",
   "    @codegraph",
   "    type: function",
   "    description: Legacy variant",
   "    owner: legacy-team",
   "    status: unknown_value",
   "    @knowgraph",
   "    type: function",
   "    description: Current variant",
   "    \"\"\"",
   "    pass"]

/-- The two-variant synthetic file as a scan input. -/
def twoVariantFile : FileInput := ⟨"a/two_variant.py", some twoVariantPy⟩

/-- A synthetic file with an annotated method in an annotated class in an
annotated module, and no declared references. -/
def miniPy : List String :=
  ["\"\"\"",
   "@codegraph",
   "type: module",
   "description: Mini module",
   "\"\"\"",
   "class C:",
   "    \"\"\"",
   "    @codegraph",
   "    type: class",
   "    description: Mini class",
   "    \"\"\"",
   "    def m(self):",
   "        \"\"\"",
   "        @codegraph",
   "        type: method",
   "        description: Mini method",
   "        \"\"\"",
   "        pass"]

/-- The module/class/method synthetic file as a scan input. -/
def miniFile : FileInput := ⟨"b/mini.py", some miniPy⟩

/-- A synthetic file with one valid and one malformed annotation on
sibling symbols. -/
def badGoodPy : List String :=
  ["def good_fn():",
   "    \"\"\"",
   "    @codegraph",
   "    type: function",
   "    description: A good annotation",
   "    \"\"\"",
   "    pass",
   "def bad_fn():",
   "    \"\"\"",
   "    @codegraph",
   "    garbage line",
   "    \"\"\"",
   "    pass"]

/-- The mixed good/malformed synthetic file as a scan input. -/
def badGoodFile : FileInput := ⟨"c/bad_good.py", some badGoodPy⟩

/-- Recognize an identity-conflict diagnostic. -/
def isConflictDiag : Diagnostic → Bool
  | .identityConflictError _ _ => true
  | _ => false

/-- How many lines of a file are exactly the given sentinel token. -/
def sentinelLineCount (lines : List String) (tok : String) : Nat :=
  (lines.filter (fun l => trimStr l = tok)).length

/-- Does a file use at most one of the two sentinel tokens? -/
def usesSingleSentinel (lines : List String) : Bool :=
  decide (sentinelLineCount lines "@codegraph" = 0) ||
  decide (sentinelLineCount lines "@knowgraph" = 0)

/-! ## The claims -/

/-- Claim C1: for a fixed input file set with fixed file contents, the
graph produced by `scan` (node set, node field values, edge set) is
byte-for-byte identical across runs and does not depend on the order in
which the files are processed: scanning any permutation of the file list
yields the same graph. -/
theorem claim_C1_scan_order_independent (files₁ files₂ : List FileInput)
    (hperm : files₁.Perm files₂)
    (hnd : (files₁.map (fun f => f.path)).Nodup) :
    (scan files₁).1 = (scan files₂).1 :=
  scanGraph_order_independent hperm hnd

theorem claim_C1_witness :
    ([twoVariantFile, miniFile].Perm [miniFile, twoVariantFile]) ∧
    (([twoVariantFile, miniFile].map (fun f => f.path)).Nodup) ∧
    (scan [twoVariantFile, miniFile]).1 = (scan [miniFile, twoVariantFile]).1 :=
  ⟨List.Perm.swap miniFile twoVariantFile [], by decide,
   claim_C1_scan_order_independent _ _
     (List.Perm.swap miniFile twoVariantFile []) (by decide)⟩

/-- One field of the spec's last-writer-wins merge, written from the
spec's words: the merged field takes the higher-rank value when that
variant defines the field, and falls back to the lower-rank value when it
omits it. -/
def fieldLWW {α : Type} (lo hi merged : Option α) : Prop :=
  (∀ x, hi = some x → merged = some x) ∧ (hi = none → merged = lo)

/-- The spec's field-level last-writer-wins merge of two records, written
from the spec's words, field by field. -/
def mergedAsSpec (lo hi merged : AnnotationRecord) : Prop :=
  merged.kind = hi.kind ∧
  merged.description = hi.description ∧
  fieldLWW lo.owner hi.owner merged.owner ∧
  fieldLWW lo.status hi.status merged.status ∧
  fieldLWW lo.tags hi.tags merged.tags ∧
  fieldLWW lo.links hi.links merged.links ∧
  fieldLWW lo.context hi.context merged.context ∧
  fieldLWW lo.dependencies hi.dependencies merged.dependencies ∧
  fieldLWW lo.compliance hi.compliance merged.compliance ∧
  fieldLWW lo.operational hi.operational merged.operational

theorem orElseO_lww {α : Type} (a b : Option α) :
    fieldLWW b a (orElseO a b) :=
  ⟨fun x h => by rw [h]; rfl, fun h => by rw [h]; rfl⟩

/-- Claim C2: when two annotation records under distinct sentinel variants
contribute to one identity, the resolver merges them field by field: in
either arrival order, each field takes the higher-rank variant's value
when defined and falls back to the lower-rank variant's value otherwise;
in particular an omitted higher-rank `owner` inherits the lower-rank
value, and conflicting `owner` values resolve to the higher-rank one. -/
theorem claim_C2_merge_field_by_field (i : Identity)
    (lo hi : RawAnnot × AnnotationRecord)
    (hrank : variantRank lo.1.variant < variantRank hi.1.variant)
    (contribs : List (RawAnnot × AnnotationRecord))
    (horder : contribs = [lo, hi] ∨ contribs = [hi, lo]) :
    ∃ node, buildNodeFrom i contribs = some node ∧
      mergedAsSpec lo.2 hi.2 node.record ∧
      (hi.2.owner = none → node.record.owner = lo.2.owner) ∧
      (∀ o₁ o₂, lo.2.owner = some o₁ → hi.2.owner = some o₂ →
        node.record.owner = some o₂) := by
  refine ⟨_, buildNodeFrom_two hrank contribs horder, ?_, ?_, ?_⟩
  · exact ⟨rfl, rfl, orElseO_lww _ _, orElseO_lww _ _, orElseO_lww _ _,
      orElseO_lww _ _, orElseO_lww _ _, orElseO_lww _ _, orElseO_lww _ _,
      orElseO_lww _ _⟩
  · intro h
    show orElseO hi.2.owner lo.2.owner = lo.2.owner
    rw [h]
    rfl
  · intro o₁ o₂ h₁ h₂
    show orElseO hi.2.owner lo.2.owner = some o₂
    rw [h₂]
    rfl

/-- A concrete lower-rank record for the merge witness. -/
def c2RecLo : AnnotationRecord :=
  ⟨"function", "Legacy", some "old-team", some "stable",
   none, none, none, none, none, none, []⟩

/-- A concrete higher-rank record for the merge witness. -/
def c2RecHi : AnnotationRecord :=
  ⟨"function", "Current", none, none, none, none, none, none, none, none, []⟩

/-- A concrete legacy raw annotation for the merge witness. -/
def c2RawLo : RawAnnot :=
  ⟨"@codegraph", .child "wfn" "function" .moduleSym, 3, []⟩

/-- A concrete current raw annotation for the merge witness. -/
def c2RawHi : RawAnnot :=
  ⟨"@knowgraph", .child "wfn" "function" .moduleSym, 8, []⟩

theorem claim_C2_witness :
    variantRank c2RawLo.variant < variantRank c2RawHi.variant ∧
    (∃ node, buildNodeFrom ⟨"d/m.py", "wfn", "function"⟩
        [(c2RawHi, c2RecHi), (c2RawLo, c2RecLo)] = some node ∧
      mergedAsSpec c2RecLo c2RecHi node.record ∧
      (c2RecHi.owner = none → node.record.owner = c2RecLo.owner) ∧
      (∀ o₁ o₂, c2RecLo.owner = some o₁ → c2RecHi.owner = some o₂ →
        node.record.owner = some o₂)) :=
  ⟨by decide,
   claim_C2_merge_field_by_field ⟨"d/m.py", "wfn", "function"⟩
     (c2RawLo, c2RecLo) (c2RawHi, c2RecHi) (by decide) _ (Or.inr rfl)⟩

/-- Claim C3: every EntityNode of a scanned graph carries a merged record
whose `kind` is one of module/class/function/method and whose
`description` is non-empty; a parsed record missing `kind` (under either
the `kind` key or the corpus key `type`) or missing `description` yields a
`ValidationError` naming that field rather than being silently dropped;
and the normalizer maps the corpus key `type` to `kind`. -/
theorem claim_C3_required_field_invariant :
    (∀ (files : List FileInput) (n : EntityNode), n ∈ (scan files).1.nodes →
      n.record.kind ∈ kindValues ∧ n.record.description ≠ "") ∧
    (∀ v : Value, lookupKey v "kind" = none → lookupKey v "type" = none →
      validateRecord v = .error ("kind", "required field missing")) ∧
    (∀ v : Value, (∃ k, requireKind v = .ok k) →
      lookupKey v "description" = none →
      validateRecord v = .error ("description", "required field missing")) ∧
    (∃ r, validateRecord (.map [("type", .scalar "function"),
        ("description", .scalar "A sample function for testing")]) = .ok r ∧
      r.kind = "function") := by
  refine ⟨?_, ?_, ?_, ?_⟩
  · intro files n h
    exact ⟨(scan_nodes_record_ok h).1, (scan_nodes_record_ok h).2.1⟩
  · intro v h1 h2
    have hk : requireKind v = .error ("kind", "required field missing") := by
      unfold requireKind
      rw [h1, h2]
      rfl
    unfold validateRecord
    rw [hk]
  · intro v ⟨k, hk⟩ hd
    have hdesc : requireDescription v = .error ("description", "required field missing") := by
      unfold requireDescription
      rw [hd]
    unfold validateRecord
    rw [hk]
    dsimp only
    rw [hdesc]
  · exact ⟨_, rfl, rfl⟩

/-- A fallback node used only to give `List.headD` a default. -/
def dummyNode : EntityNode :=
  ⟨⟨"", "", ""⟩, .moduleSym,
   ⟨"module", "x", none, none, none, none, none, none, none, none, []⟩, [], []⟩

/-- The first node of the mini fixture's scan. -/
def c3Node : EntityNode := ((scan [miniFile]).1.nodes).headD dummyNode

theorem claim_C3_witness :
    (c3Node ∈ (scan [miniFile]).1.nodes ∧
      c3Node.record.kind ∈ kindValues ∧ c3Node.record.description ≠ "") ∧
    (lookupKey (.map []) "kind" = none ∧ lookupKey (.map []) "type" = none ∧
      validateRecord (.map []) = .error ("kind", "required field missing")) ∧
    ((∃ k, requireKind (.map [("type", .scalar "class")]) = .ok k) ∧
      lookupKey (.map [("type", .scalar "class")]) "description" = none ∧
      validateRecord (.map [("type", .scalar "class")]) =
        .error ("description", "required field missing")) :=
  ⟨⟨by decide, claim_C3_required_field_invariant.1 [miniFile] c3Node (by decide)⟩,
   ⟨rfl, rfl, claim_C3_required_field_invariant.2.1 (.map []) rfl rfl⟩,
   ⟨⟨"class", rfl⟩, rfl,
    claim_C3_required_field_invariant.2.2.1 (.map [("type", .scalar "class")])
      ⟨"class", rfl⟩ rfl⟩⟩

/-- Claim C4: no IoError, SchemaError or ValidationError in one file or
annotation aborts the rest of a scan: removing a file's nodes from a
scan's graph yields exactly the scan of the remaining files, every
diagnostic of a processed file is aggregated in the scan's diagnostics
list, the diagnostics list is empty exactly when no file produced an
error, an unreadable file yields only an `IoError` diagnostic, and a file
whose one annotation is malformed still yields the node of its valid
sibling annotation together with a `SchemaError` diagnostic. -/
theorem claim_C4_errors_do_not_abort :
    (∀ (fs₁ fs₂ : List FileInput) (f : FileInput),
      ((fs₁ ++ f :: fs₂).map (fun g => g.path)).Nodup →
      ((scan (fs₁ ++ f :: fs₂)).1.nodes.filter
        (fun n => decide (n.id.path ≠ f.path))) = (scan (fs₁ ++ fs₂)).1.nodes) ∧
    (∀ (files : List FileInput) (f : FileInput) (d : Diagnostic),
      f ∈ files → d ∈ (processFile f).diags → d ∈ (scan files).2) ∧
    (∀ files : List FileInput,
      (scan files).2 = [] ↔ ∀ f ∈ files, (processFile f).diags = []) ∧
    (processFile ⟨"missing.py", none⟩ = ⟨[], [], [.ioError "missing.py"]⟩) ∧
    ((scan [badGoodFile]).1.nodes.map (fun n => n.id.qualName) = ["good_fn"] ∧
      (scan [badGoodFile]).2 =
        [.schemaError "c/bad_good.py" 10 "not a key-value line: garbage line"]) :=
  ⟨scan_nodes_filter_out,
   fun _ _ _ hf hd => processFile_diags_mem_scan hf hd,
   scan_diags_nil_iff,
   rfl,
   ⟨rfl, rfl⟩⟩

theorem claim_C4_witness :
    (((([] : List FileInput) ++ badGoodFile :: [miniFile]).map
        (fun g => g.path)).Nodup ∧
      ((scan (([] : List FileInput) ++ badGoodFile :: [miniFile])).1.nodes.filter
        (fun n => decide (n.id.path ≠ badGoodFile.path))) =
        (scan (([] : List FileInput) ++ [miniFile])).1.nodes) ∧
    (badGoodFile ∈ [badGoodFile, miniFile] ∧
      Diagnostic.schemaError "c/bad_good.py" 10 "not a key-value line: garbage line" ∈
        (processFile badGoodFile).diags ∧
      Diagnostic.schemaError "c/bad_good.py" 10 "not a key-value line: garbage line" ∈
        (scan [badGoodFile, miniFile]).2) ∧
    ((scan [miniFile]).2 = [] ↔ ∀ f ∈ [miniFile], (processFile f).diags = []) :=
  ⟨⟨by decide, claim_C4_errors_do_not_abort.1 [] [miniFile] badGoodFile (by decide)⟩,
   ⟨by decide, by decide,
    claim_C4_errors_do_not_abort.2.1 [badGoodFile, miniFile] badGoodFile _
      (by decide) (by decide)⟩,
   claim_C4_errors_do_not_abort.2.2.1 [miniFile]⟩

/-- A record whose `status` and `context.funnel_stage` are both outside
their enumerated sets; fail-fast validation reports `status` first. -/
def c5DoubleBad : Value :=
  .map [("type", .scalar "function"), ("description", .scalar "d"),
        ("status", .scalar "unknown_value"),
        ("context", .map [("funnel_stage", .scalar "bogus")])]

/-- Claim C5: validation admits `status`, `context.funnel_stage`,
`context.revenue_impact` and `compliance.data_sensitivity` only from their
fixed enumerated sets; a record with `status: unknown_value` yields a
`ValidationError` naming field `status` (also when a later field is
invalid too, by fail-fast order), no node is created from that raw
annotation alone, and the same identity still acquires its node from the
sibling valid variant. -/
theorem claim_C5_enum_validation :
    (∀ (v : Value) (r : AnnotationRecord), validateRecord v = .ok r →
      (∀ s, r.status = some s → s ∈ statusValues) ∧
      (∀ c, r.context = some c →
        (∀ s, c.funnel_stage = some s → s ∈ funnelStageValues) ∧
        (∀ s, c.revenue_impact = some s → s ∈ revenueImpactValues)) ∧
      (∀ c, r.compliance = some c →
        ∀ s, c.data_sensitivity = some s → s ∈ dataSensitivityValues)) ∧
    ((scan [twoVariantFile]).2 =
      [.validationError "a/two_variant.py" 3 "status"
        "must be one of the allowed values"]) ∧
    ((scan [twoVariantFile]).1.nodes.map
        (fun n => (n.id.qualName, n.record.description, n.variants)) =
      [("target_fn", "Current variant", ["@knowgraph"])]) ∧
    (validateRecord c5DoubleBad =
      .error ("status", "must be one of the allowed values")) := by
  refine ⟨?_, rfl, rfl, rfl⟩
  intro v r h
  exact ⟨(validateRecord_ok h).2.2.1, (validateRecord_ok h).2.2.2.1,
    (validateRecord_ok h).2.2.2.2⟩

/-- A concrete valid record value for the C5 witness. -/
def c5OkVal : Value :=
  .map [("type", .scalar "function"), ("description", .scalar "d"),
        ("status", .scalar "stable")]

/-- The normalized record of `c5OkVal`. -/
def c5OkRec : AnnotationRecord :=
  ⟨"function", "d", none, some "stable", none, none, none, none, none, none, []⟩

theorem claim_C5_witness :
    validateRecord c5OkVal = .ok c5OkRec ∧
    ((∀ s, c5OkRec.status = some s → s ∈ statusValues) ∧
      (∀ c, c5OkRec.context = some c →
        (∀ s, c.funnel_stage = some s → s ∈ funnelStageValues) ∧
        (∀ s, c.revenue_impact = some s → s ∈ revenueImpactValues)) ∧
      (∀ c, c5OkRec.compliance = some c →
        ∀ s, c.data_sensitivity = some s → s ∈ dataSensitivityValues)) :=
  ⟨rfl, claim_C5_enum_validation.1 c5OkVal c5OkRec rfl⟩

/-- Claim C6: scanning the sample fixture yields exactly one EntityNode
for `sample_function`, of kind `function`, exactly one EntityNode for
`SampleClass.method_one`, and zero `IdentityConflictError` diagnostics. -/
theorem claim_C6_sample_fixture_output :
    (((scan [sampleFile]).1.nodes.filter
        (fun n => decide (n.id.qualName = "sample_function"))).map
      (fun n => n.record.kind) = ["function"]) ∧
    (((scan [sampleFile]).1.nodes.filter
        (fun n => decide (n.id.qualName = "SampleClass.method_one"))).length = 1) ∧
    ((scan [sampleFile]).2.filter isConflictDiag = []) :=
  ⟨rfl, rfl, rfl⟩

/-- Claim C7: diffing a scanned graph against itself yields empty added,
removed and changed lists; in general `diff` reports a node as changed
exactly when it occurs under the same identity in both graphs with at
least one differing merged-record field, listing the differing field
paths, and the listed paths are empty exactly when the records agree. -/
theorem claim_C7_diff_idempotent :
    (∀ files : List FileInput, (files.map (fun f => f.path)).Nodup →
      diff (scan files).1 (scan files).1 = ⟨[], [], []⟩) ∧
    (∀ g₁ g₂ : Graph, (g₂.nodes.map (fun n => n.id)).Nodup →
      ∀ (o n : EntityNode) (flds : List String),
        ((o, n, flds) ∈ (diff g₁ g₂).changed ↔
          o ∈ g₁.nodes ∧ n ∈ g₂.nodes ∧ n.id = o.id ∧
          flds = changedFields o.record n.record ∧ flds ≠ [])) ∧
    (∀ a b : AnnotationRecord, changedFields a b = [] ↔ a = b) :=
  ⟨fun files hnd => diff_self_empty (scan_nodes_ids_nodup files hnd),
   fun _ _ hnd o n flds => diff_changed_iff hnd o n flds,
   changedFields_nil_iff⟩

/-- An old-graph record for the diff witness. -/
def c7RecOld : AnnotationRecord :=
  ⟨"function", "d", some "team-a", none, none, none, none, none, none, none, []⟩

/-- A new-graph record for the diff witness, differing in `owner`. -/
def c7RecNew : AnnotationRecord :=
  ⟨"function", "d", some "team-b", none, none, none, none, none, none, none, []⟩

/-- The old-graph node for the diff witness. -/
def c7NodeOld : EntityNode :=
  ⟨⟨"p.py", "f", "function"⟩, .child "f" "function" .moduleSym, c7RecOld,
   ["@codegraph"], [("@codegraph", 2)]⟩

/-- The new-graph node for the diff witness. -/
def c7NodeNew : EntityNode :=
  ⟨⟨"p.py", "f", "function"⟩, .child "f" "function" .moduleSym, c7RecNew,
   ["@knowgraph"], [("@knowgraph", 2)]⟩

theorem claim_C7_witness :
    (([miniFile].map (fun f => f.path)).Nodup ∧
      diff (scan [miniFile]).1 (scan [miniFile]).1 = ⟨[], [], []⟩) ∧
    (((Graph.mk [c7NodeNew] []).nodes.map (fun n => n.id)).Nodup ∧
      ((c7NodeOld, c7NodeNew, ["owner"]) ∈
          (diff (Graph.mk [c7NodeOld] []) (Graph.mk [c7NodeNew] [])).changed ↔
        c7NodeOld ∈ (Graph.mk [c7NodeOld] []).nodes ∧
        c7NodeNew ∈ (Graph.mk [c7NodeNew] []).nodes ∧
        c7NodeNew.id = c7NodeOld.id ∧
        ["owner"] = changedFields c7NodeOld.record c7NodeNew.record ∧
        (["owner"] : List String) ≠ [])) ∧
    (changedFields c7RecOld c7RecOld = [] ↔ c7RecOld = c7RecOld) :=
  ⟨⟨by decide, claim_C7_diff_idempotent.1 [miniFile] (by decide)⟩,
   ⟨by decide, claim_C7_diff_idempotent.2.1 (Graph.mk [c7NodeOld] [])
      (Graph.mk [c7NodeNew] []) (by decide) c7NodeOld c7NodeNew ["owner"]⟩,
   claim_C7_diff_idempotent.2.2 c7RecOld c7RecOld⟩

/-- Claim C8: a `contains` edge occurs in a scanned graph precisely for
each EntityNode whose enclosing symbol has a non-null parent with its own
resolved EntityNode, linking the parent's identity to the child; an
annotated method inside an annotated class inside an annotated module,
with no declared references, yields exactly the two structural edges
module→class and class→method and zero edges of any other kind. -/
theorem claim_C8_contains_edges :
    (∀ files : List FileInput, (files.map (fun f => f.path)).Nodup →
      ∀ e : Edge, (e ∈ (scan files).1.edges ∧ e.kind = .contains) ↔
        (∃ n ∈ (scan files).1.nodes, ∃ nm kd p, n.symbol = .child nm kd p ∧
          (∃ m ∈ (scan files).1.nodes,
            m.id = ⟨n.id.path, p.qualName, p.kindOf⟩) ∧
          e = ⟨⟨n.id.path, p.qualName, p.kindOf⟩, .contains, .entity n.id, none⟩)) ∧
    ((scan [miniFile]).1.edges.map (fun e =>
        (e.src.qualName, e.kind.str,
          match e.target with
          | .entity i => i.qualName
          | .externalRef s => s)) =
      [("<module>", "contains", "C"), ("C", "contains", "C.m")]) :=
  ⟨scan_contains_edge_iff, rfl⟩

/-- The module→class edge of the mini fixture, for the C8 witness. -/
def c8Edge : Edge :=
  ⟨⟨"b/mini.py", "<module>", "module"⟩, .contains,
   .entity ⟨"b/mini.py", "C", "class"⟩, none⟩

theorem claim_C8_witness :
    (([miniFile].map (fun f => f.path)).Nodup ∧
      ((c8Edge ∈ (scan [miniFile]).1.edges ∧ c8Edge.kind = .contains) ↔
        (∃ n ∈ (scan [miniFile]).1.nodes, ∃ nm kd p,
          n.symbol = .child nm kd p ∧
          (∃ m ∈ (scan [miniFile]).1.nodes,
            m.id = ⟨n.id.path, p.qualName, p.kindOf⟩) ∧
          c8Edge = ⟨⟨n.id.path, p.qualName, p.kindOf⟩, .contains,
            .entity n.id, none⟩))) :=
  ⟨by decide, claim_C8_contains_edges.1 [miniFile] (by decide) c8Edge⟩

/-- Claim C9: a source file containing zero sentinel-marked comment or
docstring lines produces an empty node set, an empty edge set and an
empty diagnostics list: plain comments and docstrings without a sentinel
yield no raw annotation and no error. -/
theorem claim_C9_no_sentinel_no_output (f : FileInput) (lines : List String)
    (hc : f.content = some lines)
    (h : ∀ sp ∈ spansOf f.path lines, ∀ x ∈ sp.content, sentinelOf x.2 = none) :
    processFile f = ⟨[], [], []⟩ ∧ (scan [f]).1.nodes = [] ∧
    (scan [f]).1.edges = [] ∧ (scan [f]).2 = [] := by
  have hp := processFile_no_sentinel hc h
  have hn : allNodes [f] = [] := by
    rw [allNodes_eq_flatMap]
    simp [hp]
  have he : allEdges [f] = [] := by
    rw [allEdges_eq_flatMap]
    simp [hp]
  refine ⟨hp, ?_, ?_, ?_⟩
  · show sortLe nodeLe (allNodes [f]) = []
    rw [hn]
    rfl
  · show sortLe edgeLe (allEdges [f]) = []
    rw [he]
    rfl
  · show scanDiags [f] = []
    unfold scanDiags
    simp [hp]

theorem claim_C9_witness :
    mixedMainFile.content = some mixedMainPy ∧
    (∀ sp ∈ spansOf mixedMainFile.path mixedMainPy,
      ∀ x ∈ sp.content, sentinelOf x.2 = none) ∧
    (processFile mixedMainFile = ⟨[], [], []⟩ ∧
      (scan [mixedMainFile]).1.nodes = [] ∧
      (scan [mixedMainFile]).1.edges = [] ∧ (scan [mixedMainFile]).2 = []) :=
  ⟨rfl, by decide,
   claim_C9_no_sentinel_no_output mixedMainFile mixedMainPy rfl (by decide)⟩

/-- Claim C10: every file of the fixture corpus uses a single sentinel
token (never both `@codegraph` and `@knowgraph` in one file); the sample
fixture has four `@codegraph` sentinel lines and no `@knowgraph` line; and
both tokens do occur in the corpus, so their coexistence is only ever
across different files. -/
theorem claim_C10_single_sentinel_per_file :
    (corpusFiles.all (fun f => usesSingleSentinel f.2)) = true ∧
    sentinelLineCount samplePy "@codegraph" = 4 ∧
    sentinelLineCount samplePy "@knowgraph" = 0 ∧
    (corpusFiles.any
      (fun f => decide (0 < sentinelLineCount f.2 "@codegraph"))) = true ∧
    (corpusFiles.any
      (fun f => decide (0 < sentinelLineCount f.2 "@knowgraph"))) = true :=
  ⟨rfl, rfl, rfl, rfl, rfl⟩

end KnowKnow

